import Mathlib

/-!
# Verification of the drillhole validation engine

A shallow embedding of `src/services/validationEngine.ts` (the current
version of the engine: structure, integrity, EOH, interval-geometry,
value validators, the error aggregator `groupErrors`, and the
orchestrator `runValidation`), together with theorems settling the
frozen claims about it.

Modelling conventions:
* JavaScript numbers are modelled as rationals (`ℚ`); the engine's
  comparisons and the `0.01` tolerance are exact at this level.
* A scalar cell value is `Scalar`: a number, a string, `null`, or
  `undefined` (an absent field reads as `undefined`, as in JS).
* `parseFloat` is modelled by `strParseFloat`: leading whitespace,
  optional sign, decimal digits with optional fraction and exponent,
  longest-valid-prefix semantics; strings with no numeric head parse to
  `none` (JS `NaN`).
* JS stringification of a number (used only inside report messages and
  display identifiers, never in any comparison the claims are about) is
  modelled by `ratDisplay`.
* JS `Map` and plain-object grouping are modelled by association lists
  with JS insertion-order semantics (`alGet`, `alSet`, `alPush`).
-/

namespace DH

/-- A scalar cell value as found in an imported row. -/
inductive Scalar where
  | num (q : ℚ)
  | str (s : String)
  | null
  | undefv
deriving DecidableEq

/-- Digits to a natural number (base 10). -/
def digitsToNat (ds : List Char) : Nat :=
  ds.foldl (fun n c => 10 * n + (c.toNat - '0'.toNat)) 0

/-- Characters that JS treats as leading whitespace for `parseFloat`. -/
def isWsChar (c : Char) : Bool :=
  c = ' ' || c = '\t' || c = '\n' || c = '\r'

/-- Parse an optional exponent part (`e`/`E`, optional sign, digits) at the
head of `cs`, returning the multiplier `10 ^ exp`.  When the exponent is
malformed it is ignored (multiplier 1), as `parseFloat` does. -/
def parseExponent (cs : List Char) : ℚ :=
  match cs with
  | 'e' :: rest | 'E' :: rest =>
    let (esign, rest2) : ℤ × List Char :=
      match rest with
      | '-' :: r => (-1, r)
      | '+' :: r => (1, r)
      | _ => (1, rest)
    let eds := rest2.takeWhile Char.isDigit
    if eds = [] then 1 else (10 : ℚ) ^ (esign * (digitsToNat eds : ℤ))
  | _ => 1

/-- Model of JS `parseFloat` on the character list of a string: skip leading
whitespace, optional sign, then the longest decimal-literal head
(`digits [. digits]` or `. digits`, optional exponent); `none` models `NaN`. -/
def parseFloatChars (cs : List Char) : Option ℚ :=
  let cs1 := cs.dropWhile isWsChar
  let (sign, cs2) : ℚ × List Char :=
    match cs1 with
    | '-' :: r => (-1, r)
    | '+' :: r => (1, r)
    | _ => (1, cs1)
  let intPart := cs2.takeWhile Char.isDigit
  let rest := cs2.dropWhile Char.isDigit
  let (fracPart, rest2) : List Char × List Char :=
    match rest with
    | '.' :: r => (r.takeWhile Char.isDigit, r.dropWhile Char.isDigit)
    | _ => ([], rest)
  if intPart = [] ∧ fracPart = [] then none
  else
    let mantissa : ℚ :=
      (digitsToNat intPart : ℚ) + (digitsToNat fracPart : ℚ) / (10 : ℚ) ^ fracPart.length
    some (sign * mantissa * parseExponent rest2)

/-- JS `parseFloat` on a string. -/
def strParseFloat (s : String) : Option ℚ :=
  parseFloatChars s.data

/-- The numeric reading `parseFloat(val)` of a scalar; `none` models `NaN`.
`parseFloat` first stringifies its argument, so `null` reads as the string
`"null"` (`NaN`) and `undefined` as `"undefined"` (`NaN`). -/
def parseScalar : Scalar → Option ℚ
  | .num q => some q
  | .str s => strParseFloat s
  | .null => none
  | .undefv => none

/-- `safeFloat` from the source: `parseFloat` with `NaN` defaulted to `0`. -/
def safeFloat (v : Scalar) : ℚ :=
  (parseScalar v).getD 0

/-- JS truthiness of a scalar (`NaN` never arises here: field values are
numbers, strings, `null` or `undefined`). -/
def truthy : Scalar → Bool
  | .num q => q ≠ 0
  | .str s => s ≠ ""
  | .null => false
  | .undefv => false

/-- Display form of a rational, standing in for JS number-to-string
conversion.  It is used only inside report messages and display site
identifiers; no claim depends on its exact spelling. -/
def ratDisplay (q : ℚ) : String :=
  if q.den = 1 then toString q.num else toString q.num ++ "/" ++ toString q.den

/-- ASCII uppercase of one character (model of JS `toUpperCase`, which the
engine applies to library codes — ASCII in the data model). -/
def asciiUpperChar (c : Char) : Char :=
  if 'a' ≤ c ∧ c ≤ 'z' then Char.ofNat (c.toNat - 32) else c

/-- ASCII uppercase of a string (model of JS `toUpperCase`). -/
def strUpper (s : String) : String :=
  ⟨s.data.map asciiUpperChar⟩

/-- JS `String(value)` of a scalar. -/
def jsString : Scalar → String
  | .num q => ratDisplay q
  | .str s => s
  | .null => "null"
  | .undefv => "undefined"

/-- JS `Number(value)` of a scalar (`none` models `NaN`): unlike
`parseFloat`, `null` converts to `0` and a string must be numeric in full. -/
def jsToNumber : Scalar → Option ℚ
  | .num q => some q
  | .null => some 0
  | .undefv => none
  | .str s =>
    let cs := (s.data.dropWhile isWsChar).reverse.dropWhile isWsChar |>.reverse
    if cs = [] then some 0
    else
      match parseFloatChars cs with
      | some q =>
        -- require the numeric head to cover the whole (trimmed) string
        let cs1 := cs.dropWhile isWsChar
        let cs2 := match cs1 with
          | '-' :: r => r
          | '+' :: r => r
          | _ => cs1
        let rest := cs2.dropWhile Char.isDigit
        let rest2 := match rest with
          | '.' :: r => r.dropWhile Char.isDigit
          | _ => rest
        let rest3 := match rest2 with
          | 'e' :: r | 'E' :: r =>
            (match r with
             | '-' :: r2 => r2.dropWhile Char.isDigit
             | '+' :: r2 => r2.dropWhile Char.isDigit
             | _ => r.dropWhile Char.isDigit)
          | _ => rest2
        if rest3 = [] then some q else none
      | none => none

/-- JS `a > b` where `a` is a raw scalar and `b` a number (used by the
orchestrator's inline survey-depth check, which does not call `safeFloat`).
`NaN` compares false. -/
def jsGtNum (v : Scalar) (b : ℚ) : Bool :=
  match jsToNumber v with
  | some a => b < a
  | none => false

/-- A data row: the synthetic unique `id` plus the (insertion-ordered)
field map from canonical uppercase column name to scalar value. -/
structure Row where
  id : String
  fields : List (String × Scalar)
deriving DecidableEq

/-- `row[k]`: an absent field reads as `undefined`. -/
def getField (r : Row) (k : String) : Scalar :=
  match r.fields.find? (fun p => p.1 = k) with
  | some p => p.2
  | none => .undefv

/-- The row's `SITE_ID` value, used as a grouping/lookup key. -/
def siteKey (r : Row) : Scalar :=
  getField r "SITE_ID"

/-- `safeSiteId` from the source: first truthy of `SITE_ID`, `HOLE_ID`,
`HOLEID`, `id`, defaulting to `"Unknown"`; stringified for reporting. -/
def safeSiteId (r : Row) : String :=
  if truthy (getField r "SITE_ID") then jsString (getField r "SITE_ID")
  else if truthy (getField r "HOLE_ID") then jsString (getField r "HOLE_ID")
  else if truthy (getField r "HOLEID") then jsString (getField r "HOLEID")
  else if r.id ≠ "" then r.id
  else "Unknown"

/-- Error severities. -/
inductive Severity where
  | INFO
  | WARNING
  | CRITICAL
deriving DecidableEq

/-- String value of a severity (the TS enum values). -/
def Severity.toStr : Severity → String
  | .INFO => "INFO"
  | .WARNING => "WARNING"
  | .CRITICAL => "CRITICAL"

/-- Table types. -/
inductive TableType where
  | COLLAR
  | SURVEY
  | LITHOLOGY
  | ASSAY
  | MINERALIZATION
  | OXIDATION
  | GEOTECH
  | RQD
  | VEIN
  | ALTERATION
  | DENSITY
deriving DecidableEq

/-- String value of a table type (the TS enum values). -/
def TableType.toStr : TableType → String
  | .COLLAR => "COLLAR"
  | .SURVEY => "SURVEY"
  | .LITHOLOGY => "LITHOLOGY"
  | .ASSAY => "ASSAY"
  | .MINERALIZATION => "MINERALIZATION"
  | .OXIDATION => "OXIDATION"
  | .GEOTECH => "GEOTECH"
  | .RQD => "RQD"
  | .VEIN => "VEIN"
  | .ALTERATION => "ALTERATION"
  | .DENSITY => "DENSITY"

/-- Error kinds. -/
inductive ErrKind where
  | STRUCTURE
  | INTEGRITY
  | LOGIC
  | INTERVAL
  | VALUE
deriving DecidableEq

/-- String value of an error kind. -/
def ErrKind.toStr : ErrKind → String
  | .STRUCTURE => "STRUCTURE"
  | .INTEGRITY => "INTEGRITY"
  | .LOGIC => "LOGIC"
  | .INTERVAL => "INTERVAL"
  | .VALUE => "VALUE"

/-- A validation error (`ValidationError` in the source; `column` is the
optional TS field, `siteId` is stored in its reporting string form). -/
structure ValidationError where
  id : String
  table : TableType
  rowId : String
  siteId : String
  column : Option String
  message : String
  severity : Severity
  type : ErrKind
deriving DecidableEq

/-- A numeric range rule. -/
structure RangeRule where
  min : Option ℚ
  max : Option ℚ
  strict : Bool
deriving DecidableEq

/-- A lookup rule naming a code library. -/
structure LookupRule where
  libraryId : String
  caseSensitive : Bool
deriving DecidableEq

/-- The declared column type. -/
inductive ColType where
  | string
  | number
  | float
deriving DecidableEq

/-- The optional validation block of a column rule. -/
structure ValidationBlock where
  range : Option RangeRule
  lookup : Option LookupRule
  isKeyReference : Option Bool
deriving DecidableEq

/-- A column rule (`ColumnConfig`). -/
structure ColumnConfig where
  columnName : String
  label : String
  isSchemaRequired : Bool
  isMandatory : Bool
  type : ColType
  validation : Option ValidationBlock
deriving DecidableEq

/-- `colConfig.validation?.range`. -/
def ColumnConfig.rangeRule (c : ColumnConfig) : Option RangeRule :=
  c.validation.bind (fun b => b.range)

/-- `colConfig.validation?.lookup`. -/
def ColumnConfig.lookupRule (c : ColumnConfig) : Option LookupRule :=
  c.validation.bind (fun b => b.lookup)

/-- A table rule set (`TableConfig`). -/
structure TableConfig where
  tableType : TableType
  columns : List ColumnConfig
deriving DecidableEq

/-- One `{code, description}` entry of a code library. -/
structure LibraryItem where
  code : String
  description : String
deriving DecidableEq

/-- A code library. -/
structure CodeLibrary where
  id : String
  name : String
  items : List LibraryItem
deriving DecidableEq

/-- The validation summary returned by `runValidation`. -/
structure ValidationSummary where
  totalErrors : Nat
  totalWarnings : Nat
  errors : List ValidationError
deriving DecidableEq

/-! ## Association-list models of JS `Map`, `Set` and object grouping -/

/-- `Map.get`: value of the entry with key `k`, if any.  (Maps built by
`alSet` keep keys unique, as JS `Map` does.) -/
def alGet {α β : Type} [DecidableEq α] : List (α × β) → α → Option β
  | [], _ => none
  | p :: m, k => if p.1 = k then some p.2 else alGet m k

/-- `Map.set`: update the entry in place if the key exists (keeping its
position), else append — JS `Map` insertion-order semantics. -/
def alSet {α β : Type} [DecidableEq α] : List (α × β) → α → β → List (α × β)
  | [], k, v => [(k, v)]
  | p :: m, k, v => if p.1 = k then (k, v) :: m else p :: alSet m k v

/-- `new Map(entries)`: set each entry in turn. -/
def mkMap {α β : Type} [DecidableEq α] (entries : List (α × β)) : List (α × β) :=
  entries.foldl (fun m p => alSet m p.1 p.2) []

/-- `Set.add`: append if absent. -/
def sAdd {α : Type} [DecidableEq α] (s : List α) (x : α) : List α :=
  if s.contains x then s else s ++ [x]

/-- Append `v` to the group of key `k` (creating the group at the end if
absent) — JS `grouped[k].push(v)` object grouping. -/
def alPush {α β : Type} [DecidableEq α] : List (α × List β) → α → β →
    List (α × List β)
  | [], k, v => [(k, [v])]
  | p :: m, k, v =>
    if p.1 = k then (p.1, p.2 ++ [v]) :: m else p :: alPush m k v

/-! ## The validators (translated from `src/services/validationEngine.ts`) -/

/-- The structure error for a missing required column header. -/
def mkStructErr (t : TableType) (name : String) : ValidationError :=
  { id := "struct-" ++ t.toStr ++ "-" ++ name
    table := t
    rowId := "HEADER"
    siteId := "SYSTEM"
    column := some name
    message := "Missing Column Header: Required column '" ++ name ++
      "' was not found in the file."
    severity := .CRITICAL
    type := .STRUCTURE }

/-- `validateStructure`: required column headers must appear among the
field names of the first row; zero rows emit nothing. -/
def validateStructure (rows : List Row) (config : TableConfig) :
    List ValidationError :=
  match rows with
  | [] => []
  | r0 :: _ =>
    let availableKeys := r0.fields.map (fun p => p.1)
    config.columns.filterMap (fun col =>
      if col.isSchemaRequired ∧ ¬ availableKeys.contains col.columnName then
        some (mkStructErr config.tableType col.columnName)
      else none)

/-- The integrity (orphan record) error for a row. -/
def mkIntErr (t : TableType) (r : Row) : ValidationError :=
  { id := "int-" ++ t.toStr ++ "-" ++ r.id
    table := t
    rowId := r.id
    siteId := safeSiteId r
    column := some "SITE_ID"
    message := "Orphan Record: Site ID '" ++ safeSiteId r ++
      "' does not exist in Collar table."
    severity := .CRITICAL
    type := .INTEGRITY }

/-- `validateIntegrity`: every child row's `SITE_ID` must exist among the
Collar rows' `SITE_ID` values. -/
def validateIntegrity (collars : List Row) (rows : List Row) (t : TableType) :
    List ValidationError :=
  let validSiteIds := collars.map siteKey
  rows.filterMap (fun row =>
    if validSiteIds.contains (siteKey row) then none else some (mkIntErr t row))

/-- The tolerance used by the EOH validator. -/
def TOLERANCE : ℚ := 1 / 100

/-- The `SITE_ID → safeFloat END_DEPTH` map built from the Collar rows. -/
def collarMapOf (collars : List Row) : List (Scalar × ℚ) :=
  mkMap (collars.map (fun c => (siteKey c, safeFloat (getField c "END_DEPTH"))))

/-- The per-row depth-exceeded error. -/
def mkEohErr (t : TableType) (r : Row) (maxDepth : ℚ) : ValidationError :=
  { id := "eoh-" ++ t.toStr ++ "-" ++ r.id
    table := t
    rowId := r.id
    siteId := safeSiteId r
    column := some "DEPTH_TO"
    message := "Depth Exceeded: 'DEPTH_TO' (" ++ jsString (getField r "DEPTH_TO") ++
      ") exceeds Collar END_DEPTH (" ++ ratDisplay maxDepth ++ ")."
    severity := .CRITICAL
    type := .LOGIC }

/-- The per-site bottom-coverage error. -/
def mkBotErr (t : TableType) (s : Scalar) (deepest total : ℚ) (sev : Severity) :
    ValidationError :=
  { id := "eohbot-" ++ t.toStr ++ "-" ++ jsString s
    table := t
    rowId := ""
    siteId := jsString s
    column := some "DEPTH_TO"
    message := "Bottom coverage: deepest sample (" ++ ratDisplay deepest ++
      ") is shallower than Collar END_DEPTH (" ++ ratDisplay total ++ ")."
    severity := sev
    type := .LOGIC }

/-- One step of the row loop of `validateEOH`: accumulates the emitted
errors, the deepest `DEPTH_TO` seen per site, and the set of sites that
already produced an over-EOH row. -/
def eohStep (collarMap : List (Scalar × ℚ)) (t : TableType)
    (st : List ValidationError × List (Scalar × ℚ) × List Scalar) (row : Row) :
    List ValidationError × List (Scalar × ℚ) × List Scalar :=
  let (errs, maxTo, over) := st
  let siteId := siteKey row
  let toVal := safeFloat (getField row "DEPTH_TO")
  let maxTo' :=
    match alGet maxTo siteId with
    | none => alSet maxTo siteId toVal
    | some prevMax => if toVal > prevMax then alSet maxTo siteId toVal else maxTo
  match alGet collarMap siteId with
  | some maxDepth =>
    if maxDepth > 0 ∧ toVal > maxDepth + TOLERANCE then
      (errs ++ [mkEohErr t row maxDepth], maxTo', sAdd over siteId)
    else (errs, maxTo', over)
  | none => (errs, maxTo', over)

/-- `validateEOH`: per-row depth-exceeded check plus the per-site
bottom-of-hole coverage check over the accumulated deepest depths. -/
def validateEOH (collars : List Row) (rows : List Row) (t : TableType) :
    List ValidationError :=
  let collarMap := collarMapOf collars
  let st := rows.foldl (eohStep collarMap t) ([], [], [])
  let errs := st.1
  let maxTo := st.2.1
  let over := st.2.2
  errs ++ maxTo.filterMap (fun p =>
    let siteId := p.1
    let deepest := p.2
    match alGet collarMap siteId with
    | some total =>
      if deepest < total - TOLERANCE then
        some (mkBotErr t siteId deepest total
          (if over.contains siteId then .WARNING else .CRITICAL))
      else none
    | none => none)

/-- The sort key of the interval sort: the coerced `DEPTH_FROM`. -/
def fromKey (r : Row) : ℚ :=
  safeFloat (getField r "DEPTH_FROM")

/-- Stable insertion of `x` into a list sorted ascending by `key`, placing
`x` before the first element with key `≥ key x`.  Together with
`sortByKey` this models the ES2019 stable `Array.prototype.sort` with the
comparator `(a, b) => key a - key b`. -/
def insertByKey {α : Type} (key : α → ℚ) (x : α) : List α → List α
  | [] => [x]
  | y :: ys => if key x ≤ key y then x :: y :: ys else y :: insertByKey key x ys

/-- Stable ascending sort by `key` (insertion sort). -/
def sortByKey {α : Type} (key : α → ℚ) (l : List α) : List α :=
  l.foldr (insertByKey key) []

/-- The zero-length interval error. -/
def mkZeroErr (t : TableType) (s : String) (r : Row) : ValidationError :=
  { id := "zero-" ++ t.toStr ++ "-" ++ r.id
    table := t
    rowId := r.id
    siteId := s
    column := some "DEPTH_TO"
    message := "Zero Length: Interval " ++ ratDisplay (fromKey r) ++ " to " ++
      ratDisplay (safeFloat (getField r "DEPTH_TO")) ++ " has no length."
    severity := .WARNING
    type := .INTERVAL }

/-- The inverted interval error. -/
def mkInvErr (t : TableType) (s : String) (r : Row) : ValidationError :=
  { id := "inv-" ++ t.toStr ++ "-" ++ r.id
    table := t
    rowId := r.id
    siteId := s
    column := some "DEPTH_FROM"
    message := "Inverted Interval: DEPTH_FROM (" ++ ratDisplay (fromKey r) ++
      ") is greater than DEPTH_TO (" ++
      ratDisplay (safeFloat (getField r "DEPTH_TO")) ++ ")."
    severity := .CRITICAL
    type := .INTERVAL }

/-- The overlap error (current row starts above the previous row's end). -/
def mkOvlErr (t : TableType) (s : String) (r : Row) (prevTo : ℚ) :
    ValidationError :=
  { id := "ovl-" ++ t.toStr ++ "-" ++ r.id
    table := t
    rowId := r.id
    siteId := s
    column := some "DEPTH_FROM"
    message := "Overlap: Starts at " ++ ratDisplay (fromKey r) ++
      " but previous ended at " ++ ratDisplay prevTo ++ "."
    severity := .CRITICAL
    type := .INTERVAL }

/-- The gap error (current row starts below the previous row's end). -/
def mkGapErr (t : TableType) (s : String) (r : Row) (prevTo : ℚ) :
    ValidationError :=
  { id := "gap-" ++ t.toStr ++ "-" ++ r.id
    table := t
    rowId := r.id
    siteId := s
    column := some "DEPTH_FROM"
    message := "Gap: Gap detected between " ++ ratDisplay prevTo ++ " and " ++
      ratDisplay (fromKey r) ++ "."
    severity := .WARNING
    type := .INTERVAL }

/-- The errors emitted for one position of the sorted walk: the current
row `cur`, with `prev?` its predecessor in the sorted group, if any. -/
def intervalCellEmit (t : TableType) (s : String) (prev? : Option Row)
    (cur : Row) : List ValidationError :=
  let frm := fromKey cur
  let toV := safeFloat (getField cur "DEPTH_TO")
  (if frm = toV then [mkZeroErr t s cur] else []) ++
  (if frm > toV then [mkInvErr t s cur] else []) ++
  (match prev? with
   | some prev =>
     let prevTo := safeFloat (getField prev "DEPTH_TO")
     if frm < prevTo then [mkOvlErr t s cur prevTo]
     else if prevTo < frm then [mkGapErr t s cur prevTo]
     else []
   | none => [])

/-- The indexed walk of one sorted site group (the `for` loop of
`validateIntervals`). -/
def intervalWalk (t : TableType) (s : String) :
    Option Row → List Row → List ValidationError
  | _, [] => []
  | prev?, cur :: rest =>
    intervalCellEmit t s prev? cur ++ intervalWalk t s (some cur) rest

/-- Grouping of the interval rows by resolved site identifier (the JS
object `grouped`), in insertion order. -/
def groupBySite (rows : List Row) : List (String × List Row) :=
  rows.foldl (fun g r => alPush g (safeSiteId r) r) []

/-- `validateIntervals`: group by resolved site identifier, stable-sort each
group ascending by coerced `DEPTH_FROM`, then walk each sorted group
emitting zero-length / inverted / overlap / gap errors. -/
def validateIntervals (rows : List Row) (t : TableType) :
    List ValidationError :=
  (groupBySite rows).flatMap (fun p =>
    intervalWalk t p.1 none (sortByKey fromKey p.2))

/-- The missing-mandatory-value error. -/
def mkReqErr (t : TableType) (r : Row) (col : ColumnConfig) : ValidationError :=
  { id := "req-" ++ t.toStr ++ "-" ++ r.id ++ "-" ++ col.columnName
    table := t
    rowId := r.id
    siteId := safeSiteId r
    column := some col.columnName
    message := "Missing Value: Data in '" ++ col.columnName ++
      "' cannot be empty."
    severity := .CRITICAL
    type := .VALUE }

/-- The below-minimum error. -/
def mkMinErr (t : TableType) (r : Row) (col : ColumnConfig) (numVal mn : ℚ)
    (strict : Bool) : ValidationError :=
  { id := "min-" ++ t.toStr ++ "-" ++ r.id ++ "-" ++ col.columnName
    table := t
    rowId := r.id
    siteId := safeSiteId r
    column := some col.columnName
    message := "Value Too Low: " ++ ratDisplay numVal ++ " is below minimum " ++
      ratDisplay mn ++ "."
    severity := if strict then .CRITICAL else .WARNING
    type := .VALUE }

/-- The above-maximum error. -/
def mkMaxErr (t : TableType) (r : Row) (col : ColumnConfig) (numVal mx : ℚ)
    (strict : Bool) : ValidationError :=
  { id := "max-" ++ t.toStr ++ "-" ++ r.id ++ "-" ++ col.columnName
    table := t
    rowId := r.id
    siteId := safeSiteId r
    column := some col.columnName
    message := "Value Too High: " ++ ratDisplay numVal ++ " is above maximum " ++
      ratDisplay mx ++ "."
    severity := if strict then .CRITICAL else .WARNING
    type := .VALUE }

/-- The invalid-lookup-code error. -/
def mkLookupErr (t : TableType) (r : Row) (col : ColumnConfig) (value : Scalar)
    (libName : String) : ValidationError :=
  { id := "lookup-" ++ t.toStr ++ "-" ++ r.id ++ "-" ++ col.columnName
    table := t
    rowId := r.id
    siteId := safeSiteId r
    column := some col.columnName
    message := "Invalid Code: '" ++ jsString value ++ "' not found in library '" ++
      libName ++ "'."
    severity := .CRITICAL
    type := .VALUE }

/-- The range sub-check of `validateValues` for one cell with value
`value` (reached only for non-empty values of non-`string` columns). -/
def rangeCell (t : TableType) (r : Row) (col : ColumnConfig) (value : Scalar) :
    List ValidationError :=
  match col.rangeRule with
  | some rng =>
    if col.type ≠ .string then
      let numVal := safeFloat value
      (match rng.min with
       | some mn => if numVal < mn then [mkMinErr t r col numVal mn rng.strict] else []
       | none => []) ++
      (match rng.max with
       | some mx => if numVal > mx then [mkMaxErr t r col numVal mx rng.strict] else []
       | none => [])
    else []
  | none => []

/-- The lookup sub-check of `validateValues` for one cell with value
`value` (reached only for non-empty values of `string` columns); an
unresolved `libraryId` is silently skipped. -/
def lookupCell (t : TableType) (r : Row) (col : ColumnConfig)
    (libraries : List CodeLibrary) (value : Scalar) : List ValidationError :=
  match col.lookupRule with
  | some lk =>
    if col.type = .string then
      match libraries.find? (fun l => l.id = lk.libraryId) with
      | some library =>
        let validCodes := library.items.map (fun i =>
          if lk.caseSensitive then i.code else strUpper i.code)
        let checkVal := if lk.caseSensitive then jsString value
          else strUpper (jsString value)
        if validCodes.contains checkVal then []
        else [mkLookupErr t r col value library.name]
      | none => []
    else []
  | none => []

/-- Whether a value counts as absent/empty for the mandatory check
(`value === undefined || value === '' || value === null`). -/
def isEmptyVal (v : Scalar) : Bool :=
  v = .undefv ∨ v = .str "" ∨ v = .null

/-- The checks of `validateValues` for one row/column cell. -/
def cellErrors (t : TableType) (r : Row) (col : ColumnConfig)
    (libraries : List CodeLibrary) : List ValidationError :=
  let value := getField r col.columnName
  if col.isMandatory ∧ isEmptyVal value then [mkReqErr t r col]
  else if value = .undefv ∨ value = .str "" then []
  else rangeCell t r col value ++ lookupCell t r col libraries value

/-- `validateValues`: per row and per configured column, the mandatory,
range and lookup checks. -/
def validateValues (rows : List Row) (config : TableConfig)
    (libraries : List CodeLibrary) : List ValidationError :=
  rows.flatMap (fun r =>
    config.columns.flatMap (fun col => cellErrors config.tableType r col libraries))

/-- The invalid-collar-depth error. -/
def mkCollarDepthErr (c : Row) : ValidationError :=
  { id := "collar-depth-" ++ c.id
    table := .COLLAR
    rowId := c.id
    siteId := jsString (siteKey c)
    column := some "END_DEPTH"
    message := "Invalid Collar depth (" ++ jsString (getField c "END_DEPTH") ++
      "). Must be greater than zero."
    severity := .CRITICAL
    type := .VALUE }

/-- `validateCollarDepths`: every Collar row must declare a positive
`END_DEPTH` (after coercion). -/
def validateCollarDepths (collars : List Row) : List ValidationError :=
  collars.filterMap (fun c =>
    if safeFloat (getField c "END_DEPTH") ≤ 0 then some (mkCollarDepthErr c)
    else none)

/-! ## The error aggregator and the orchestrator -/

/-- JS `Array.prototype.join(sep)` on a list of strings. -/
def joinSep (sep : String) : List String → String
  | [] => ""
  | [s] => s
  | s :: rest => s ++ sep ++ joinSep sep rest

/-- The check category of an error: `err.id.split('-')[0]`. -/
def errCategory (e : ValidationError) : String :=
  (e.id.splitOn "-").headD ""

/-- The aggregation key of an error:
`[table, siteId, column || '', type, severity, category].join('|')`. -/
def keyOf (e : ValidationError) : String :=
  joinSep "|" [e.table.toStr, e.siteId, e.column.getD "", e.type.toStr,
    e.severity.toStr, errCategory e]

/-- One step of the aggregation map building: bump the existing group or
open a new one at the end. -/
def groupStep (m : List (String × (ValidationError × Nat × List String)))
    (err : ValidationError) :
    List (String × (ValidationError × Nat × List String)) :=
  let k := keyOf err
  match alGet m k with
  | some st => alSet m k (st.1, st.2.1 + 1, st.2.2 ++ [err.rowId])
  | none => alSet m k (err, 1, [err.rowId])

/-- The templated summary message of a collapsed group. -/
def groupedMessage (base : ValidationError) (count : Nat) : String :=
  if base.id.startsWith "eohbot" then
    toString count ++ " bottom‑of‑hole coverage issues on site " ++ base.siteId ++ "."
  else if base.id.startsWith "eoh" then
    toString count ++ " intervals exceeded EOH on site " ++ base.siteId ++ "."
  else
    "Multiple similar errors on site " ++ base.siteId ++ "."

/-- `groupErrors`: collapse repeated errors (same aggregation key) into one
grouped entry whose `rowId` comma-joins the original row ids; singleton
groups pass through unchanged. -/
def groupErrors (errors : List ValidationError) : List ValidationError :=
  let m := errors.foldl groupStep []
  m.map (fun p =>
    let base := p.2.1
    let count := p.2.2.1
    let rowIds := p.2.2.2
    if count > 1 then
      { base with rowId := joinSep "," rowIds, message := groupedMessage base count }
    else base)

/-- The inline survey-depth error of the orchestrator. -/
def mkSurvEohErr (row : Row) (mx : ℚ) : ValidationError :=
  { id := "eoh-surv-" ++ row.id
    table := .SURVEY
    rowId := row.id
    siteId := safeSiteId row
    column := some "DEPTH"
    message := "Survey Depth " ++ jsString (getField row "DEPTH") ++
      " exceeds EOH " ++ ratDisplay mx ++ "."
    severity := .CRITICAL
    type := .LOGIC }

/-- The orchestrator's inline survey-depth pass (raw `row.DEPTH > max`,
without coercion through `safeFloat`). -/
def surveyEohErrors (collarMap : List (Scalar × ℚ)) (surveyData : List Row) :
    List ValidationError :=
  surveyData.filterMap (fun row =>
    match alGet collarMap (siteKey row) with
    | some mx => if jsGtNum (getField row "DEPTH") mx then
        some (mkSurvEohErr row mx)
      else none
    | none => none)

/-- The standard check sequence run for one interval table when (and only
when) it has an active rule set (`validateGenericInterval`). -/
def genericIntervalErrors (collarData : List Row) (configs : List TableConfig)
    (libraries : List CodeLibrary) (data : List Row) (t : TableType) :
    List ValidationError :=
  match configs.find? (fun c => c.tableType = t) with
  | some config =>
    validateStructure data config ++
    validateIntegrity collarData data t ++
    validateEOH collarData data t ++
    validateIntervals data t ++
    validateValues data config libraries
  | none => []

/-- All errors accumulated by `runValidation` before aggregation
(`allErrors` at the end of the per-table passes). -/
def collectErrors (collarData surveyData lithologyData assayData
    mineralizationData oxidationData geotechData rqdData veinData
    alterationData densityData : List Row) (configs : List TableConfig)
    (libraries : List CodeLibrary) : List ValidationError :=
  (match configs.find? (fun c => c.tableType = .COLLAR) with
   | some cfg =>
     validateStructure collarData cfg ++
     validateValues collarData cfg libraries ++
     validateCollarDepths collarData
   | none => []) ++
  (match configs.find? (fun c => c.tableType = .SURVEY) with
   | some cfg =>
     validateStructure surveyData cfg ++
     validateValues surveyData cfg libraries
   | none => []) ++
  validateIntegrity collarData surveyData .SURVEY ++
  surveyEohErrors (collarMapOf collarData) surveyData ++
  genericIntervalErrors collarData configs libraries lithologyData .LITHOLOGY ++
  genericIntervalErrors collarData configs libraries assayData .ASSAY ++
  genericIntervalErrors collarData configs libraries mineralizationData .MINERALIZATION ++
  genericIntervalErrors collarData configs libraries oxidationData .OXIDATION ++
  genericIntervalErrors collarData configs libraries geotechData .GEOTECH ++
  genericIntervalErrors collarData configs libraries rqdData .RQD ++
  genericIntervalErrors collarData configs libraries veinData .VEIN ++
  genericIntervalErrors collarData configs libraries alterationData .ALTERATION ++
  genericIntervalErrors collarData configs libraries densityData .DENSITY

/-- `runValidation`: run every configured pass, aggregate, and count the
remaining CRITICAL and WARNING findings. -/
def runValidation (collarData surveyData lithologyData assayData
    mineralizationData oxidationData geotechData rqdData veinData
    alterationData densityData : List Row) (configs : List TableConfig)
    (libraries : List CodeLibrary) : ValidationSummary :=
  let finalErrors := groupErrors (collectErrors collarData surveyData
    lithologyData assayData mineralizationData oxidationData geotechData
    rqdData veinData alterationData densityData configs libraries)
  { totalErrors := (finalErrors.filter (fun e => e.severity = .CRITICAL)).length
    totalWarnings := (finalErrors.filter (fun e => e.severity = .WARNING)).length
    errors := finalErrors }

/-! ## Generic list lemmas -/

theorem filterMap_ite {α β : Type} (p : α → Prop) [DecidablePred p] (f : α → β)
    (l : List α) :
    l.filterMap (fun a => if p a then some (f a) else none) =
      (l.filter (fun a => p a)).map f := by
  induction l with
  | nil => rfl
  | cons a l ih =>
    by_cases h : p a <;> simp [List.filterMap_cons, List.filter_cons, h, ih]

/-! ## Claim C6: the structure validator -/

/-- Characterization of the structure validator on a non-empty table. -/
theorem validateStructure_cons (r0 : Row) (rest : List Row) (config : TableConfig) :
    validateStructure (r0 :: rest) config =
      (config.columns.filter (fun col => col.isSchemaRequired ∧
        ¬ (r0.fields.map (fun p => p.1)).contains col.columnName)).map
        (fun col => mkStructErr config.tableType col.columnName) := by
  show List.filterMap _ _ = _
  rw [filterMap_ite]

/-- **C6.** For every table and rule set the structure validator emits no
errors when the row collection is empty; when non-empty it emits exactly
one CRITICAL `STRUCTURE` error (with `rowId = "HEADER"`,
`siteId = "SYSTEM"`, `column` the missing name) for each column rule with
`isSchemaRequired = true` whose name is absent from the key set of the
first row, and no `STRUCTURE` errors for any other column — independent of
how many rows the table has. -/
theorem C6_structure_validator (config : TableConfig) (r0 : Row)
    (rest rest2 : List Row) (name : String) :
    validateStructure [] config = [] ∧
    validateStructure (r0 :: rest) config = validateStructure (r0 :: rest2) config ∧
    (validateStructure (r0 :: rest) config).countP (fun e => e.column = some name) =
      config.columns.countP (fun col => col.isSchemaRequired ∧
        col.columnName = name ∧ ¬ (r0.fields.map (fun p => p.1)).contains name) ∧
    ∀ e ∈ validateStructure (r0 :: rest) config,
      e.severity = .CRITICAL ∧ e.type = .STRUCTURE ∧ e.rowId = "HEADER" ∧
        e.siteId = "SYSTEM" := by
  refine ⟨rfl, rfl, ?_, ?_⟩
  · rw [validateStructure_cons, List.countP_map, List.countP_filter]
    apply List.countP_congr
    intro col _
    simp only [Function.comp_apply, mkStructErr, decide_eq_true_eq, Bool.and_eq_true,
      Option.some.injEq]
    constructor
    · rintro ⟨hn, hr, hc⟩
      subst hn
      exact ⟨hr, rfl, hc⟩
    · rintro ⟨hr, hn, hc⟩
      subst hn
      exact ⟨rfl, hr, hc⟩
  · intro e he
    rw [validateStructure_cons, List.mem_map] at he
    obtain ⟨col, _, rfl⟩ := he
    exact ⟨rfl, rfl, rfl, rfl⟩

/-- A two-column rule set used to exercise the structure validator. -/
def structCfgW : TableConfig :=
  ⟨.COLLAR, [⟨"SITE_ID", "Site ID", true, true, .string, none⟩,
             ⟨"END_DEPTH", "End Depth", true, true, .float, none⟩]⟩

/-- Concrete instance of C6: a row missing `END_DEPTH` yields exactly one
structure error for that column and none for the present `SITE_ID`. -/
theorem C6_structure_validator_witness :
    validateStructure [] structCfgW = [] ∧
    (validateStructure [⟨"c1", [("SITE_ID", .str "S1")]⟩] structCfgW).countP
      (fun e => e.column = some "END_DEPTH") = 1 ∧
    (validateStructure [⟨"c1", [("SITE_ID", .str "S1")]⟩] structCfgW).countP
      (fun e => e.column = some "SITE_ID") = 0 := by
  refine ⟨(C6_structure_validator structCfgW ⟨"c1", [("SITE_ID", .str "S1")]⟩
    [] [] "END_DEPTH").1, ?_, ?_⟩
  · rw [(C6_structure_validator structCfgW ⟨"c1", [("SITE_ID", .str "S1")]⟩
      [] [] "END_DEPTH").2.2.1]
    decide
  · rw [(C6_structure_validator structCfgW ⟨"c1", [("SITE_ID", .str "S1")]⟩
      [] [] "SITE_ID").2.2.1]
    decide

/-! ## Claims C7, C8, C9: the value validator and numeric coercion -/

/-- A value that is not `undefined`, `null` or `""` is not empty. -/
theorem isEmptyVal_eq_false {v : Scalar} (h1 : v ≠ .undefv) (h2 : v ≠ .str "")
    (h3 : v ≠ .null) : isEmptyVal v = false := by
  simp [isEmptyVal, h1, h2, h3]

/-- The range sub-check never fires on a column of declared type `string`. -/
theorem rangeCell_string (t : TableType) (r : Row) (col : ColumnConfig)
    (v : Scalar) (h : col.type = .string) : rangeCell t r col v = [] := by
  cases hr : col.rangeRule <;> simp [rangeCell, hr, h]

/-- The lookup sub-check never fires on a column whose declared type is not
`string`. -/
theorem lookupCell_nonstring (t : TableType) (r : Row) (col : ColumnConfig)
    (libraries : List CodeLibrary) (v : Scalar) (h : col.type ≠ .string) :
    lookupCell t r col libraries v = [] := by
  cases hl : col.lookupRule <;> simp [lookupCell, hl, h]

/-- **C7.** In the value validator, for every row and every configured
column with `isMandatory = true` whose value is absent or empty
(`undefined`, `null`, or the empty string), exactly one CRITICAL `VALUE`
"missing value" error is emitted for that cell — the cell's error list is
exactly `[mkReqErr]` — so no range or lookup error is emitted for that
cell in that row. -/
theorem C7_mandatory_short_circuit (t : TableType) (r : Row)
    (col : ColumnConfig) (libraries : List CodeLibrary)
    (h1 : col.isMandatory = true)
    (h2 : isEmptyVal (getField r col.columnName) = true) :
    cellErrors t r col libraries = [mkReqErr t r col] ∧
    (mkReqErr t r col).severity = .CRITICAL ∧
    (mkReqErr t r col).type = .VALUE ∧
    (mkReqErr t r col).column = some col.columnName ∧
    (∀ rows config, validateValues rows config libraries =
      rows.flatMap (fun row => config.columns.flatMap
        (fun c => cellErrors config.tableType row c libraries))) := by
  refine ⟨?_, rfl, rfl, rfl, fun _ _ => rfl⟩
  simp [cellErrors, h1, h2]

/-- Concrete instance of C7: an empty string in a mandatory column yields
exactly the one missing-value error. -/
theorem C7_mandatory_short_circuit_witness :
    cellErrors .COLLAR ⟨"c1", [("SITE_ID", .str "")]⟩
      ⟨"SITE_ID", "Site ID", true, true, .string, none⟩ [] =
      [mkReqErr .COLLAR ⟨"c1", [("SITE_ID", .str "")]⟩
        ⟨"SITE_ID", "Site ID", true, true, .string, none⟩] :=
  (C7_mandatory_short_circuit .COLLAR ⟨"c1", [("SITE_ID", .str "")]⟩
    ⟨"SITE_ID", "Site ID", true, true, .string, none⟩ [] rfl (by decide)).1

/-- **C8.** In the value validator, for every row and every configured
column of declared type `string` carrying a lookup rule, with a value that
reaches the check (non-empty): if the rule's `libraryId` resolves, a
CRITICAL `VALUE` "invalid code" error is emitted iff the (case-folded
unless `caseSensitive`) value is not in the library's code set; if it does
not resolve, no error at all is emitted for that cell. -/
theorem C8_lookup_validation (t : TableType) (r : Row) (col : ColumnConfig)
    (libraries : List CodeLibrary) (lk : LookupRule)
    (hlk : col.lookupRule = some lk) (hty : col.type = .string)
    (h1 : getField r col.columnName ≠ .undefv)
    (h2 : getField r col.columnName ≠ .str "")
    (h3 : getField r col.columnName ≠ .null) :
    (∀ lib, libraries.find? (fun l => l.id = lk.libraryId) = some lib →
      cellErrors t r col libraries =
        (if ((lib.items.map (fun i =>
              if lk.caseSensitive then i.code else strUpper i.code)).contains
            (if lk.caseSensitive then jsString (getField r col.columnName)
             else strUpper (jsString (getField r col.columnName)))) then []
         else [mkLookupErr t r col (getField r col.columnName) lib.name])) ∧
    (libraries.find? (fun l => l.id = lk.libraryId) = none →
      cellErrors t r col libraries = []) ∧
    (mkLookupErr t r col (getField r col.columnName) "").severity = .CRITICAL ∧
    (mkLookupErr t r col (getField r col.columnName) "").type = .VALUE := by
  have hmand : ¬ (col.isMandatory ∧ isEmptyVal (getField r col.columnName)) := by
    rw [isEmptyVal_eq_false h1 h2 h3]
    simp
  refine ⟨?_, ?_, rfl, rfl⟩
  · intro lib hfind
    simp only [cellErrors, hmand, if_false, h1, h2, false_or, if_neg,
      rangeCell_string t r col _ hty, List.nil_append]
    simp [lookupCell, hlk, hty, hfind]
  · intro hfind
    simp only [cellErrors, hmand, if_false, h1, h2, false_or, if_neg,
      rangeCell_string t r col _ hty, List.nil_append]
    simp [lookupCell, hlk, hty, hfind]

/-- The column rule of the spec's lookup example. -/
def lithCol : ColumnConfig :=
  ⟨"LITH", "Lithology", false, false, .string, some ⟨none, some ⟨"lith", false⟩, none⟩⟩

/-- The code library of the spec's lookup example. -/
def lithLib : CodeLibrary := ⟨"lith", "Lithology Codes", [⟨"QZ", "Quartz"⟩]⟩

/-- Concrete instance of C8 (the spec's example): value `"qz"` passes the
case-insensitive lookup, value `"XX"` produces exactly one error. -/
theorem C8_lookup_validation_witness :
    cellErrors .LITHOLOGY ⟨"r1", [("LITH", .str "qz")]⟩ lithCol [lithLib] = [] ∧
    cellErrors .LITHOLOGY ⟨"r2", [("LITH", .str "XX")]⟩ lithCol [lithLib] =
      [mkLookupErr .LITHOLOGY ⟨"r2", [("LITH", .str "XX")]⟩ lithCol
        (.str "XX") "Lithology Codes"] := by
  constructor
  · have h := ((C8_lookup_validation .LITHOLOGY ⟨"r1", [("LITH", .str "qz")]⟩
      lithCol [lithLib] ⟨"lith", false⟩ rfl rfl (by decide) (by decide)
      (by decide)).1 lithLib rfl)
    rw [h]
    decide
  · have h := ((C8_lookup_validation .LITHOLOGY ⟨"r2", [("LITH", .str "XX")]⟩
      lithCol [lithLib] ⟨"lith", false⟩ rfl rfl (by decide) (by decide)
      (by decide)).1 lithLib rfl)
    rw [h]
    decide

/-- **C9 (counterexample).** The claim says every numeric comparison of the
engine treats an unparsable value exactly as the number `0`.  The
orchestrator's inline survey-depth check compares the raw `DEPTH` value
(JS `>`), so an unparsable `DEPTH` compares as `NaN` and never exceeds:
with Collar `END_DEPTH = -5` and survey `DEPTH = "abc"` the engine emits
nothing, while the same row with `DEPTH = 0` emits the survey-depth error
— `"abc"` is not treated as `0` there. -/
theorem C9_coercion_counterexample :
    surveyEohErrors (collarMapOf [⟨"c1", [("SITE_ID", .str "S1"), ("END_DEPTH", .num (-5))]⟩])
      [⟨"v1", [("SITE_ID", .str "S1"), ("DEPTH", .str "abc")]⟩] = [] ∧
    surveyEohErrors (collarMapOf [⟨"c1", [("SITE_ID", .str "S1"), ("END_DEPTH", .num (-5))]⟩])
      [⟨"v1", [("SITE_ID", .str "S1"), ("DEPTH", .num 0)]⟩] ≠ [] ∧
    parseScalar (.str "abc") = none := by
  refine ⟨by decide, by decide, by decide⟩

/-- **C9 (amended).** `safeFloat` returns the parsed number when the value
parses and `0` when it does not; consequently every comparison that
coerces through `safeFloat` (range checks, EOH and interval-geometry depth
checks) treats an unparsable value exactly as `0` — in particular the
range sub-check on an unparsable value behaves exactly as on the number
`0`, and a coercion failure by itself emits no error (a cell with an
unparsable non-empty value and no validation rules emits nothing).  The
one exception forced by the counterexample: the orchestrator's inline
survey-depth comparison uses the raw value, where an unparsable `DEPTH`
compares as `NaN` (never greater), not as `0`. -/
theorem C9_numeric_coercion (v : Scalar) (t : TableType) (r : Row)
    (col : ColumnConfig) :
    (∀ q, parseScalar v = some q → safeFloat v = q) ∧
    (parseScalar v = none → safeFloat v = 0) ∧
    (parseScalar v = none → safeFloat v = safeFloat (.num 0)) ∧
    (parseScalar v = none → rangeCell t r col v = rangeCell t r col (.num 0)) ∧
    (col.validation = none → v ≠ .undefv → v ≠ .str "" → col.isMandatory = false →
      getField r col.columnName = v → cellErrors t r col [] = []) := by
  refine ⟨?_, ?_, ?_, ?_, ?_⟩
  · intro q h
    simp [safeFloat, h]
  · intro h
    simp [safeFloat, h]
  · intro h
    rw [show safeFloat (Scalar.num 0) = 0 from rfl]
    simp [safeFloat, h]
  · intro h
    have h0 : safeFloat v = safeFloat (.num 0) := by
      rw [show safeFloat (Scalar.num 0) = 0 from rfl]
      simp [safeFloat, h]
    simp only [rangeCell, h0]
  · intro hval h1 h2 hm hget
    have hrr : col.rangeRule = none := by simp [ColumnConfig.rangeRule, hval]
    have hlr : col.lookupRule = none := by simp [ColumnConfig.lookupRule, hval]
    simp [cellErrors, hget, h1, h2, hm, rangeCell, lookupCell, hrr, hlr]

/-- Concrete instance of the amended C9: `safeFloat "abc" = 0`, the range
check on `"abc"` behaves as on `0`, and an unparsable value with no rules
emits nothing. -/
theorem C9_numeric_coercion_witness :
    safeFloat (.str "abc") = 0 ∧
    rangeCell .SURVEY ⟨"v1", [("AZIMUTH", .str "abc")]⟩
        ⟨"AZIMUTH", "Azimuth", false, false, .float,
          some ⟨some ⟨some 0, some 360, true⟩, none, none⟩⟩ (.str "abc") =
      rangeCell .SURVEY ⟨"v1", [("AZIMUTH", .str "abc")]⟩
        ⟨"AZIMUTH", "Azimuth", false, false, .float,
          some ⟨some ⟨some 0, some 360, true⟩, none, none⟩⟩ (.num 0) ∧
    cellErrors .SURVEY ⟨"v1", [("COMMENT", .str "abc")]⟩
      ⟨"COMMENT", "Comment", false, false, .string, none⟩ [] = [] := by
  refine ⟨?_, ?_, ?_⟩
  · exact (C9_numeric_coercion (.str "abc") .SURVEY ⟨"v1", [("AZIMUTH", .str "abc")]⟩
      ⟨"AZIMUTH", "Azimuth", false, false, .float,
        some ⟨some ⟨some 0, some 360, true⟩, none, none⟩⟩).2.1 (by decide)
  · exact (C9_numeric_coercion (.str "abc") .SURVEY ⟨"v1", [("AZIMUTH", .str "abc")]⟩
      ⟨"AZIMUTH", "Azimuth", false, false, .float,
        some ⟨some ⟨some 0, some 360, true⟩, none, none⟩⟩).2.2.2.1 (by decide)
  · exact (C9_numeric_coercion (.str "abc") .SURVEY ⟨"v1", [("COMMENT", .str "abc")]⟩
      ⟨"COMMENT", "Comment", false, false, .string, none⟩).2.2.2.2 rfl
      (by decide) (by decide) rfl rfl

/-! ## Claim C10: the collar depth check -/

/-- In a list whose keys are pairwise distinct, counting the elements that
share `a`'s key and satisfy `p` gives `1` or `0` according to `p a`. -/
theorem countP_key_unique {α β : Type} [DecidableEq β] (key : α → β)
    (l : List α) (hl : (l.map key).Nodup) (a : α) (ha : a ∈ l) (p : α → Bool) :
    l.countP (fun x => decide (key x = key a) && p x) = if p a then 1 else 0 := by
  induction l with
  | nil => cases ha
  | cons x xs ih =>
    rw [List.map_cons, List.nodup_cons] at hl
    rcases List.mem_cons.1 ha with rfl | hxs
    · rw [List.countP_cons]
      have hzero : xs.countP (fun y => decide (key y = key a) && p y) = 0 := by
        rw [List.countP_eq_zero]
        intro y hy
        have : key y ≠ key a := fun hk => hl.1 (hk ▸ List.mem_map_of_mem key hy)
        simp [this]
      rw [hzero]
      by_cases hp : p a <;> simp [hp]
    · have hne : key x ≠ key a := by
        intro hk
        exact hl.1 (hk ▸ List.mem_map_of_mem key hxs)
      rw [List.countP_cons]
      simp only [hne, decide_eq_true_eq, decide_False, Bool.false_and, if_false,
        Nat.add_zero]
      exact ih hl.2 hxs

/-- **C10.** Whenever a COLLAR rule set is present, `runValidation` also
runs the collar depth check: for each Collar row whose coerced `END_DEPTH`
is `≤ 0`, exactly one CRITICAL `VALUE` error with column `END_DEPTH` is
emitted for that row, and none for rows with positive coerced depth; the
check's findings all land in the orchestrator's accumulated error list. -/
theorem C10_collar_depth_check (collars : List Row) (c : Row)
    (hmem : c ∈ collars) (hnd : (collars.map Row.id).Nodup) :
    (validateCollarDepths collars).countP (fun e => e.rowId = c.id) =
      (if safeFloat (getField c "END_DEPTH") ≤ 0 then 1 else 0) ∧
    (mkCollarDepthErr c).severity = .CRITICAL ∧
    (mkCollarDepthErr c).type = .VALUE ∧
    (mkCollarDepthErr c).column = some "END_DEPTH" ∧
    (mkCollarDepthErr c).table = .COLLAR ∧
    (∀ surveyData lithologyData assayData mineralizationData oxidationData
       geotechData rqdData veinData alterationData densityData configs
       libraries cfg,
       configs.find? (fun cf => cf.tableType = .COLLAR) = some cfg →
       ∀ e ∈ validateCollarDepths collars,
         e ∈ collectErrors collars surveyData lithologyData assayData
           mineralizationData oxidationData geotechData rqdData veinData
           alterationData densityData configs libraries) := by
  refine ⟨?_, rfl, rfl, rfl, rfl, ?_⟩
  · show (List.filterMap _ _).countP _ = _
    rw [filterMap_ite (fun c => safeFloat (getField c "END_DEPTH") ≤ 0)
      mkCollarDepthErr, List.countP_map, List.countP_filter]
    have h := countP_key_unique Row.id collars hnd c hmem
      (fun x => decide (safeFloat (getField x "END_DEPTH") ≤ 0))
    have hc : collars.countP (fun a =>
        ((fun e => decide (e.rowId = c.id)) ∘ mkCollarDepthErr) a &&
          decide (safeFloat (getField a "END_DEPTH") ≤ 0)) =
        collars.countP (fun x => decide (x.id = c.id) &&
          decide (safeFloat (getField x "END_DEPTH") ≤ 0)) := by
      apply List.countP_congr
      intro x _
      simp [mkCollarDepthErr]
    rw [hc, h]
    by_cases hp : safeFloat (getField c "END_DEPTH") ≤ 0 <;> simp [hp]
  · intro surveyData lithologyData assayData mineralizationData oxidationData
      geotechData rqdData veinData alterationData densityData configs
      libraries cfg hfind e he
    simp only [collectErrors, hfind, List.append_assoc, List.mem_append]
    tauto

/-- Concrete instance of C10: a collar with `END_DEPTH = 0` yields exactly
one depth error, one with `END_DEPTH = 50` yields none. -/
theorem C10_collar_depth_check_witness :
    (validateCollarDepths
      [⟨"c1", [("SITE_ID", .str "S1"), ("END_DEPTH", .num 0)]⟩,
       ⟨"c2", [("SITE_ID", .str "S2"), ("END_DEPTH", .num 50)]⟩]).countP
      (fun e => e.rowId = "c1") = 1 ∧
    (validateCollarDepths
      [⟨"c1", [("SITE_ID", .str "S1"), ("END_DEPTH", .num 0)]⟩,
       ⟨"c2", [("SITE_ID", .str "S2"), ("END_DEPTH", .num 50)]⟩]).countP
      (fun e => e.rowId = "c2") = 0 := by
  constructor
  · rw [(C10_collar_depth_check
      [⟨"c1", [("SITE_ID", .str "S1"), ("END_DEPTH", .num 0)]⟩,
       ⟨"c2", [("SITE_ID", .str "S2"), ("END_DEPTH", .num 50)]⟩]
      ⟨"c1", [("SITE_ID", .str "S1"), ("END_DEPTH", .num 0)]⟩
      (by decide) (by decide)).1]
    decide
  · rw [(C10_collar_depth_check
      [⟨"c1", [("SITE_ID", .str "S1"), ("END_DEPTH", .num 0)]⟩,
       ⟨"c2", [("SITE_ID", .str "S2"), ("END_DEPTH", .num 50)]⟩]
      ⟨"c2", [("SITE_ID", .str "S2"), ("END_DEPTH", .num 50)]⟩
      (by decide) (by decide)).1]
    decide

/-! ## Association-list lemmas -/

theorem alGet_alSet_self {α β : Type} [DecidableEq α] (m : List (α × β))
    (k : α) (v : β) : alGet (alSet m k v) k = some v := by
  induction m with
  | nil => simp [alSet, alGet]
  | cons p m ih =>
    by_cases hp : p.1 = k
    · simp [alSet, alGet, hp]
    · simp [alSet, alGet, hp, ih]

theorem alGet_alSet_ne {α β : Type} [DecidableEq α] (m : List (α × β))
    (k k' : α) (v : β) (h : k' ≠ k) : alGet (alSet m k v) k' = alGet m k' := by
  have hkk : ¬ (k = k') := fun hh => h hh.symm
  induction m with
  | nil => simp [alSet, alGet, hkk]
  | cons p m ih =>
    by_cases hp : p.1 = k
    · simp [alSet, alGet, hp, hkk]
    · by_cases hk' : p.1 = k' <;> simp [alSet, alGet, hp, hk', h, ih]

theorem keys_alSet_mem {α β : Type} [DecidableEq α] (m : List (α × β))
    (k : α) (v : β) (h : alGet m k ≠ none) :
    (alSet m k v).map Prod.fst = m.map Prod.fst := by
  induction m with
  | nil => simp [alGet] at h
  | cons p m ih =>
    by_cases hp : p.1 = k
    · simp [alSet, hp]
    · simp only [alGet, hp, if_false, if_neg hp] at h
      simp [alSet, hp, ih h]

theorem keys_alSet_new {α β : Type} [DecidableEq α] (m : List (α × β))
    (k : α) (v : β) (h : alGet m k = none) :
    (alSet m k v).map Prod.fst = m.map Prod.fst ++ [k] := by
  induction m with
  | nil => simp [alSet]
  | cons p m ih =>
    by_cases hp : p.1 = k
    · simp [alGet, hp] at h
    · simp only [alGet, hp, if_false, if_neg hp] at h
      simp [alSet, hp, ih h]

theorem alGet_eq_none_iff {α β : Type} [DecidableEq α]
    (m : List (α × β)) (k : α) :
    alGet m k = none ↔ k ∉ m.map Prod.fst := by
  induction m with
  | nil => simp [alGet]
  | cons p m ih =>
    by_cases hp : p.1 = k
    · simp [alGet, hp]
    · have hkp : ¬ (k = p.1) := fun hh => hp hh.symm
      simp [alGet, hp, ih, hkp]

theorem entry_alGet_of_nodup {α β : Type} [DecidableEq α]
    (m : List (α × β)) (hnd : (m.map Prod.fst).Nodup) (k : α) (v : β)
    (h : (k, v) ∈ m) : alGet m k = some v := by
  induction m with
  | nil => cases h
  | cons p m ih =>
    rw [List.map_cons, List.nodup_cons] at hnd
    rcases List.mem_cons.1 h with rfl | hm
    · simp [alGet]
    · have hp : ¬ (p.1 = k) := by
        intro hh
        exact hnd.1 (hh ▸ List.mem_map_of_mem Prod.fst hm)
      simp only [alGet, hp, if_false, if_neg hp]
      exact ih hnd.2 hm

theorem sAdd_contains {α : Type} [DecidableEq α] (o : List α) (x s : α) :
    ((sAdd o x).contains s) = (o.contains s || decide (x = s)) := by
  by_cases hc : o.contains x
  · simp only [sAdd, hc, if_true]
    by_cases hxs : x = s
    · subst hxs
      simp_all [List.elem_eq_mem]
    · simp [hxs]
  · have hx : x ∉ o := by simpa [List.elem_eq_mem] using hc
    by_cases hxs : x = s
    · subst hxs
      simp [sAdd, hx, List.elem_eq_mem]
    · have hsx : ¬ (s = x) := fun hh => hxs hh.symm
      simp [sAdd, hx, hxs, hsx, List.elem_eq_mem]

/-! ## Claims C2, C3: the EOH validator

Declarative characterization of `validateEOH`, following the spec's
description: a per-row findings list and a per-site bottom-coverage
findings list. -/

/-- The coerced `DEPTH_TO` of a row. -/
def toValOf (r : Row) : ℚ :=
  safeFloat (getField r "DEPTH_TO")

/-- The per-row EOH finding: emitted iff the row's site has a known,
positive collar depth exceeded by more than the tolerance. -/
def rowFinding (collarMap : List (Scalar × ℚ)) (t : TableType) (r : Row) :
    Option ValidationError :=
  match alGet collarMap (siteKey r) with
  | some d => if d > 0 ∧ toValOf r > d + TOLERANCE then some (mkEohErr t r d)
    else none
  | none => none

/-- Whether a row triggers the per-row EOH check. -/
def overCondRow (collarMap : List (Scalar × ℚ)) (r : Row) : Bool :=
  match alGet collarMap (siteKey r) with
  | some d => decide (d > 0) && decide (toValOf r > d + TOLERANCE)
  | none => false

/-- The per-row findings of the EOH validator, in row order. -/
def eohRowFindings (collars rows : List Row) (t : TableType) :
    List ValidationError :=
  rows.filterMap (rowFinding (collarMapOf collars) t)

/-- The distinct `SITE_ID` values of the rows, in order of first
occurrence. -/
def sitesInOrder (rows : List Row) : List Scalar :=
  rows.foldl (fun acc r =>
    if acc.contains (siteKey r) then acc else acc ++ [siteKey r]) []

/-- One step of the running maximum of coerced `DEPTH_TO` for site `s`. -/
def mxStep (s : Scalar) (acc : Option ℚ) (r : Row) : Option ℚ :=
  if siteKey r = s then
    match acc with
    | none => some (toValOf r)
    | some p => if toValOf r > p then some (toValOf r) else some p
  else acc

/-- The maximum coerced `DEPTH_TO` over the rows of site `s` (`none` when
the site has no rows). -/
def mx (rows : List Row) (s : Scalar) : Option ℚ :=
  rows.foldl (mxStep s) none

/-- Whether some row of site `s` triggered the per-row EOH check. -/
def siteHasOverRow (collarMap : List (Scalar × ℚ)) (rows : List Row)
    (s : Scalar) : Bool :=
  rows.any (fun r => decide (siteKey r = s) && overCondRow collarMap r)

/-- The per-site bottom-coverage finding: emitted iff the site's collar
depth is known and the deepest interval falls short of it by more than the
tolerance; WARNING if the site already has a per-row finding, CRITICAL
otherwise. -/
def botFinding (collarMap : List (Scalar × ℚ)) (rows : List Row)
    (t : TableType) (s : Scalar) : Option ValidationError :=
  match mx rows s, alGet collarMap s with
  | some deepest, some total =>
    if deepest < total - TOLERANCE then
      some (mkBotErr t s deepest total
        (if siteHasOverRow collarMap rows s then .WARNING else .CRITICAL))
    else none
  | _, _ => none

/-- The bottom-coverage findings of the EOH validator, one per qualifying
site, in order of first occurrence. -/
def eohBotFindings (collars rows : List Row) (t : TableType) :
    List ValidationError :=
  (sitesInOrder rows).filterMap (botFinding (collarMapOf collars) rows t)

/-- One step of the deepest-per-site map update (the `maxToBySite` part of
the row loop). -/
def alMaxStep (m : List (Scalar × ℚ)) (r : Row) : List (Scalar × ℚ) :=
  match alGet m (siteKey r) with
  | none => alSet m (siteKey r) (toValOf r)
  | some prevMax =>
    if toValOf r > prevMax then alSet m (siteKey r) (toValOf r) else m

/-- One step of the over-EOH site set update. -/
def overStep (collarMap : List (Scalar × ℚ)) (o : List Scalar) (r : Row) :
    List Scalar :=
  if overCondRow collarMap r then sAdd o (siteKey r) else o

theorem eohStep_fst (cm : List (Scalar × ℚ)) (t : TableType)
    (st : List ValidationError × List (Scalar × ℚ) × List Scalar) (r : Row) :
    (eohStep cm t st r).1 = st.1 ++ (rowFinding cm t r).toList := by
  obtain ⟨e, m, o⟩ := st
  simp only [eohStep, rowFinding, toValOf]
  cases h : alGet cm (siteKey r) with
  | none => simp [h]
  | some d =>
    simp only [h]
    by_cases hc : 0 < d ∧ d + TOLERANCE < safeFloat (getField r "DEPTH_TO") <;>
      simp [hc]

theorem eohStep_maxTo (cm : List (Scalar × ℚ)) (t : TableType)
    (st : List ValidationError × List (Scalar × ℚ) × List Scalar) (r : Row) :
    (eohStep cm t st r).2.1 = alMaxStep st.2.1 r := by
  obtain ⟨e, m, o⟩ := st
  simp only [eohStep, alMaxStep, toValOf]
  cases hm : alGet m (siteKey r) with
  | none =>
    cases h : alGet cm (siteKey r) with
    | none => simp [h, hm]
    | some d =>
      simp only [h, hm]
      by_cases hc : 0 < d ∧ d + TOLERANCE < safeFloat (getField r "DEPTH_TO") <;>
        simp [hc]
  | some p =>
    cases h : alGet cm (siteKey r) with
    | none => simp [h, hm]
    | some d =>
      simp only [h, hm]
      by_cases hc : 0 < d ∧ d + TOLERANCE < safeFloat (getField r "DEPTH_TO") <;>
        by_cases hp : p < safeFloat (getField r "DEPTH_TO") <;> simp [hc, hp]

theorem eohStep_over (cm : List (Scalar × ℚ)) (t : TableType)
    (st : List ValidationError × List (Scalar × ℚ) × List Scalar) (r : Row) :
    (eohStep cm t st r).2.2 = overStep cm st.2.2 r := by
  obtain ⟨e, m, o⟩ := st
  simp only [eohStep, overStep, overCondRow, toValOf]
  cases h : alGet cm (siteKey r) with
  | none => simp [h]
  | some d =>
    simp only [h]
    by_cases hc : 0 < d ∧ d + TOLERANCE < safeFloat (getField r "DEPTH_TO") <;>
      simp [hc]

theorem filterMap_cons_toList {α β : Type} (f : α → Option β) (a : α)
    (l : List α) :
    (a :: l).filterMap f = (f a).toList ++ l.filterMap f := by
  cases h : f a <;> simp [h]

/-- The row loop of `validateEOH`, decomposed into its three components. -/
theorem foldl_eohStep (cm : List (Scalar × ℚ)) (t : TableType) :
    ∀ (rows : List Row)
      (st : List ValidationError × List (Scalar × ℚ) × List Scalar),
      rows.foldl (eohStep cm t) st =
        (st.1 ++ rows.filterMap (rowFinding cm t),
         rows.foldl alMaxStep st.2.1,
         rows.foldl (overStep cm) st.2.2) := by
  intro rows
  induction rows with
  | nil => intro st; simp
  | cons r rows ih =>
    intro st
    rw [List.foldl_cons, ih (eohStep cm t st r)]
    rw [eohStep_fst, eohStep_maxTo, eohStep_over]
    rw [filterMap_cons_toList, List.foldl_cons, List.foldl_cons,
      List.append_assoc]

/-- One step of the site-key list of the deepest-per-site map. -/
def siteStep (acc : List Scalar) (r : Row) : List Scalar :=
  if acc.contains (siteKey r) then acc else acc ++ [siteKey r]

theorem alGet_mem_keys {α β : Type} [DecidableEq α] (m : List (α × β)) (k : α)
    (v : β) (h : alGet m k = some v) : k ∈ m.map Prod.fst := by
  by_contra hk
  rw [← alGet_eq_none_iff m k] at hk
  rw [h] at hk
  cases hk

theorem keys_alMaxStep (m : List (Scalar × ℚ)) (r : Row) :
    (alMaxStep m r).map Prod.fst = siteStep (m.map Prod.fst) r := by
  simp only [alMaxStep, siteStep]
  cases hg : alGet m (siteKey r) with
  | none =>
    have hmem : siteKey r ∉ m.map Prod.fst := (alGet_eq_none_iff m _).1 hg
    have hcon : (m.map Prod.fst).contains (siteKey r) = false := by
      simpa [List.elem_eq_mem] using hmem
    rw [hcon, if_neg (by simp), keys_alSet_new m _ _ hg]
  | some p =>
    have hmem : siteKey r ∈ m.map Prod.fst := alGet_mem_keys m _ p hg
    have hcon : (m.map Prod.fst).contains (siteKey r) = true := by
      simpa [List.elem_eq_mem] using hmem
    rw [hcon, if_pos rfl]
    dsimp only
    by_cases hp : toValOf r > p
    · rw [if_pos hp, keys_alSet_mem m _ _ (by rw [hg]; exact fun hh => by cases hh)]
    · rw [if_neg hp]

theorem keys_foldl_alMaxStep (rows : List Row) :
    ∀ m : List (Scalar × ℚ),
      (rows.foldl alMaxStep m).map Prod.fst =
        rows.foldl siteStep (m.map Prod.fst) := by
  induction rows with
  | nil => intro m; rfl
  | cons r rows ih =>
    intro m
    rw [List.foldl_cons, List.foldl_cons, ih, keys_alMaxStep]

theorem sitesInOrder_eq_keys (rows : List Row) :
    sitesInOrder rows = (rows.foldl alMaxStep []).map Prod.fst := by
  rw [keys_foldl_alMaxStep]
  rfl

theorem foldl_siteStep_nodup (rows : List Row) :
    ∀ acc : List Scalar, acc.Nodup → (rows.foldl siteStep acc).Nodup := by
  induction rows with
  | nil => intro acc h; exact h
  | cons r rows ih =>
    intro acc h
    rw [List.foldl_cons]
    apply ih
    simp only [siteStep]
    by_cases hc : siteKey r ∈ acc
    · simp [List.elem_eq_mem, hc, h]
    · simp [List.elem_eq_mem, hc, List.nodup_append, h]

theorem alGet_alMaxStep (m : List (Scalar × ℚ)) (r : Row) (s : Scalar) :
    alGet (alMaxStep m r) s = mxStep s (alGet m s) r := by
  simp only [alMaxStep, mxStep]
  by_cases hs : siteKey r = s
  · subst hs
    cases hg : alGet m (siteKey r) with
    | none => simp [alGet_alSet_self]
    | some p =>
      by_cases hp : toValOf r > p
      · simp [hp, alGet_alSet_self]
      · simp [hp, hg]
  · have hs' : s ≠ siteKey r := fun hh => hs hh.symm
    cases hg : alGet m (siteKey r) with
    | none => simp [hs, alGet_alSet_ne m _ _ _ hs']
    | some p =>
      by_cases hp : toValOf r > p
      · simp [hs, hp, alGet_alSet_ne m _ _ _ hs']
      · simp [hs, hp]

theorem alGet_foldl_alMaxStep (rows : List Row) :
    ∀ (m : List (Scalar × ℚ)) (s : Scalar),
      alGet (rows.foldl alMaxStep m) s = rows.foldl (mxStep s) (alGet m s) := by
  induction rows with
  | nil => intro m s; rfl
  | cons r rows ih =>
    intro m s
    rw [List.foldl_cons, List.foldl_cons, ih, alGet_alMaxStep]

theorem contains_foldl_overStep (cm : List (Scalar × ℚ)) (rows : List Row) :
    ∀ (o : List Scalar) (s : Scalar),
      ((rows.foldl (overStep cm) o).contains s) =
        (o.contains s ||
          rows.any (fun r => decide (siteKey r = s) && overCondRow cm r)) := by
  induction rows with
  | nil => intro o s; simp
  | cons r rows ih =>
    intro o s
    rw [List.foldl_cons, List.any_cons, ih]
    simp only [overStep]
    by_cases hc : overCondRow cm r
    · rw [if_pos hc, sAdd_contains]
      by_cases hs : siteKey r = s <;> simp [hs, hc, Bool.or_assoc, Bool.or_comm]
    · rw [if_neg hc]
      simp [hc]

/-- `validateEOH` is exactly the per-row findings followed by the per-site
bottom-coverage findings. -/
theorem validateEOH_split (collars rows : List Row) (t : TableType) :
    validateEOH collars rows t =
      eohRowFindings collars rows t ++ eohBotFindings collars rows t := by
  unfold validateEOH
  dsimp only
  rw [foldl_eohStep]
  dsimp only
  simp only [List.nil_append]
  show eohRowFindings collars rows t ++ _ = _
  apply congrArg (eohRowFindings collars rows t ++ ·)
  have hkeys := (sitesInOrder_eq_keys rows).symm
  have hnd : ((rows.foldl alMaxStep []).map Prod.fst).Nodup := by
    rw [hkeys]
    exact foldl_siteStep_nodup rows [] List.nodup_nil
  have hpt : ∀ p ∈ rows.foldl alMaxStep ([] : List (Scalar × ℚ)),
      (match alGet (collarMapOf collars) p.1 with
       | some total =>
         if p.2 < total - TOLERANCE then
           some (mkBotErr t p.1 p.2 total
             (if (rows.foldl (overStep (collarMapOf collars)) []).contains p.1
              then .WARNING else .CRITICAL))
         else none
       | none => none) =
      botFinding (collarMapOf collars) rows t p.1 := by
    intro p hp
    have hget : alGet (rows.foldl alMaxStep []) p.1 = some p.2 :=
      entry_alGet_of_nodup _ hnd p.1 p.2 hp
    have hmx : mx rows p.1 = some p.2 := by
      rw [← hget, alGet_foldl_alMaxStep]
      rfl
    have hover : ((rows.foldl (overStep (collarMapOf collars)) []).contains p.1)
        = siteHasOverRow (collarMapOf collars) rows p.1 := by
      rw [contains_foldl_overStep]
      simp [siteHasOverRow]
    rw [hover]
    simp only [botFinding, hmx]
    cases halg : alGet (collarMapOf collars) p.1 <;> simp [halg]
  calc (rows.foldl alMaxStep []).filterMap _
      = (rows.foldl alMaxStep []).filterMap
          (fun p => botFinding (collarMapOf collars) rows t p.1) :=
        List.filterMap_congr hpt
    _ = eohBotFindings collars rows t := by
        rw [eohBotFindings, sitesInOrder_eq_keys, List.filterMap_map]
        rfl

theorem rowFinding_eq_some {cm : List (Scalar × ℚ)} {t : TableType} {r : Row}
    {e : ValidationError} (h : rowFinding cm t r = some e) :
    ∃ d, alGet cm (siteKey r) = some d ∧ 0 < d ∧
      toValOf r > d + TOLERANCE ∧ e = mkEohErr t r d := by
  unfold rowFinding at h
  cases halg : alGet cm (siteKey r) with
  | none => rw [halg] at h; dsimp only at h; cases h
  | some d =>
    rw [halg] at h
    dsimp only at h
    by_cases hc : d > 0 ∧ toValOf r > d + TOLERANCE
    · rw [if_pos hc] at h
      exact ⟨d, rfl, hc.1, hc.2, (Option.some.injEq _ _ ▸ h).symm⟩
    · rw [if_neg hc] at h
      cases h

theorem eohBotFindings_rowId (collars rows : List Row) (t : TableType)
    (e : ValidationError) (h : e ∈ eohBotFindings collars rows t) :
    e.rowId = "" := by
  rw [eohBotFindings, List.mem_filterMap] at h
  obtain ⟨s, _, hs⟩ := h
  unfold botFinding at hs
  cases h1 : mx rows s with
  | none => rw [h1] at hs; dsimp only at hs; cases hs
  | some deepest =>
    cases h2 : alGet (collarMapOf collars) s with
    | none => rw [h1, h2] at hs; dsimp only at hs; cases hs
    | some total =>
      rw [h1, h2] at hs
      dsimp only at hs
      by_cases hlt : deepest < total - TOLERANCE
      · rw [if_pos hlt] at hs
        injection hs with hh
        rw [← hh]
        rfl
      · rw [if_neg hlt] at hs
        cases hs

/-- **C3.** For every interval row whose `SITE_ID` maps to a known Collar
`END_DEPTH` greater than `0`, the CRITICAL `LOGIC` depth-exceeded error
for that row is emitted iff the row's coerced `DEPTH_TO` strictly exceeds
`END_DEPTH + 0.01`; rows whose site is absent from the Collar map, or
whose `END_DEPTH` is not positive, produce no per-row EOH error (no
finding carries their row id). -/
theorem C3_per_row_eoh (collars rows : List Row) (t : TableType) (row : Row)
    (d : ℚ) (hmem : row ∈ rows) (hnd : (rows.map Row.id).Nodup)
    (hid : row.id ≠ "") :
    (alGet (collarMapOf collars) (siteKey row) = some d → 0 < d →
      ((mkEohErr t row d ∈ validateEOH collars rows t) ↔
        toValOf row > d + TOLERANCE)) ∧
    (alGet (collarMapOf collars) (siteKey row) = some d → d ≤ 0 →
      (validateEOH collars rows t).countP (fun e => e.rowId = row.id) = 0) ∧
    (alGet (collarMapOf collars) (siteKey row) = none →
      (validateEOH collars rows t).countP (fun e => e.rowId = row.id) = 0) ∧
    (mkEohErr t row d).severity = .CRITICAL ∧
    (mkEohErr t row d).type = .LOGIC ∧
    (mkEohErr t row d).column = some "DEPTH_TO" := by
  have hinj : ∀ a ∈ rows, ∀ b ∈ rows, a.id = b.id → a = b :=
    List.inj_on_of_nodup_map hnd
  refine ⟨?_, ?_, ?_, rfl, rfl, rfl⟩
  · intro halg hd
    rw [validateEOH_split, List.mem_append]
    constructor
    · rintro (hrow | hbot)
      · rw [eohRowFindings, List.mem_filterMap] at hrow
        obtain ⟨r, hr, hfind⟩ := hrow
        obtain ⟨d', halg', _, hcond', heq⟩ := rowFinding_eq_some hfind
        have hrid : row.id = r.id := congrArg ValidationError.rowId heq
        have hrr : r = row := hinj r hr row hmem hrid.symm
        subst hrr
        rw [halg] at halg'
        rw [Option.some.injEq] at halg'
        exact halg' ▸ hcond'
      · exact absurd (eohBotFindings_rowId collars rows t _ hbot) hid
    · intro hcond
      left
      rw [eohRowFindings, List.mem_filterMap]
      refine ⟨row, hmem, ?_⟩
      unfold rowFinding
      rw [halg]
      dsimp only
      rw [if_pos ⟨hd, hcond⟩]
  · intro halg hd
    rw [validateEOH_split, List.countP_eq_zero]
    intro e he
    rw [List.mem_append] at he
    rcases he with hrow | hbot
    · rw [eohRowFindings, List.mem_filterMap] at hrow
      obtain ⟨r, hr, hfind⟩ := hrow
      obtain ⟨d', halg', hd', _, heq⟩ := rowFinding_eq_some hfind
      simp only [decide_eq_true_eq]
      intro hrid
      rw [heq] at hrid
      have hrr : r = row := hinj r hr row hmem hrid
      subst hrr
      rw [halg] at halg'
      rw [Option.some.injEq] at halg'
      exact absurd (halg' ▸ hd') (not_lt.2 hd)
    · have := eohBotFindings_rowId collars rows t e hbot
      simp only [decide_eq_true_eq]
      intro hrid
      exact hid (by rw [← hrid, this])
  · intro halg
    rw [validateEOH_split, List.countP_eq_zero]
    intro e he
    rw [List.mem_append] at he
    rcases he with hrow | hbot
    · rw [eohRowFindings, List.mem_filterMap] at hrow
      obtain ⟨r, hr, hfind⟩ := hrow
      obtain ⟨d', halg', _, _, heq⟩ := rowFinding_eq_some hfind
      simp only [decide_eq_true_eq]
      intro hrid
      rw [heq] at hrid
      have hrr : r = row := hinj r hr row hmem hrid
      subst hrr
      rw [halg] at halg'
      cases halg'
    · have := eohBotFindings_rowId collars rows t e hbot
      simp only [decide_eq_true_eq]
      intro hrid
      exact hid (by rw [← hrid, this])

/-- Concrete instance of C3 (the spec's example): `END_DEPTH = 100`,
`DEPTH_TO = 105` emits the row error; `DEPTH_TO = 100` does not. -/
theorem C3_per_row_eoh_witness :
    (mkEohErr .LITHOLOGY
        ⟨"r1", [("SITE_ID", .str "S1"), ("DEPTH_TO", .num 105)]⟩ 100 ∈
      validateEOH [⟨"c1", [("SITE_ID", .str "S1"), ("END_DEPTH", .num 100)]⟩]
        [⟨"r1", [("SITE_ID", .str "S1"), ("DEPTH_TO", .num 105)]⟩]
        .LITHOLOGY) ∧
    (validateEOH [⟨"c1", [("SITE_ID", .str "S1"), ("END_DEPTH", .num 100)]⟩]
        [⟨"r2", [("SITE_ID", .str "S2"), ("DEPTH_TO", .num 105)]⟩]
        .LITHOLOGY).countP (fun e => e.rowId = "r2") = 0 := by
  constructor
  · exact ((C3_per_row_eoh
      [⟨"c1", [("SITE_ID", .str "S1"), ("END_DEPTH", .num 100)]⟩]
      [⟨"r1", [("SITE_ID", .str "S1"), ("DEPTH_TO", .num 105)]⟩]
      .LITHOLOGY ⟨"r1", [("SITE_ID", .str "S1"), ("DEPTH_TO", .num 105)]⟩
      100 (of_decide_eq_true (by with_unfolding_all rfl))
      (of_decide_eq_true (by with_unfolding_all rfl))
      (of_decide_eq_true (by with_unfolding_all rfl))).1
      (of_decide_eq_true (by with_unfolding_all rfl))
      (of_decide_eq_true (by with_unfolding_all rfl))).2
      (of_decide_eq_true (by with_unfolding_all rfl))
  · exact (C3_per_row_eoh
      [⟨"c1", [("SITE_ID", .str "S1"), ("END_DEPTH", .num 100)]⟩]
      [⟨"r2", [("SITE_ID", .str "S2"), ("DEPTH_TO", .num 105)]⟩]
      .LITHOLOGY ⟨"r2", [("SITE_ID", .str "S2"), ("DEPTH_TO", .num 105)]⟩
      100 (of_decide_eq_true (by with_unfolding_all rfl))
      (of_decide_eq_true (by with_unfolding_all rfl))
      (of_decide_eq_true (by with_unfolding_all rfl))).2.2.1
      (of_decide_eq_true (by with_unfolding_all rfl))

/-- **C2 (counterexample).** The claim requires `END_DEPTH > 0` for a
bottom-coverage finding; the code checks only that the collar depth is
known.  With `END_DEPTH = 0` and a single interval `DEPTH_TO = -1` the
engine emits a (CRITICAL) bottom-coverage finding even though
`END_DEPTH` is not positive. -/
theorem C2_bottom_coverage_counterexample :
    safeFloat (getField
      ⟨"c1", [("SITE_ID", Scalar.str "S1"), ("END_DEPTH", Scalar.num 0)]⟩
      "END_DEPTH") = 0 ∧
    validateEOH
      [⟨"c1", [("SITE_ID", .str "S1"), ("END_DEPTH", .num 0)]⟩]
      [⟨"r1", [("SITE_ID", .str "S1"), ("DEPTH_TO", .num (-1))]⟩]
      .LITHOLOGY =
      [mkBotErr .LITHOLOGY (.str "S1") (-1) 0 .CRITICAL] :=
  ⟨of_decide_eq_true (by with_unfolding_all rfl),
   of_decide_eq_true (by with_unfolding_all rfl)⟩

/-- **C2 (amended).** In the EOH validator, for every site occurring among
the interval rows, a bottom-coverage finding is emitted iff the site's
declared `END_DEPTH` is known (present in the Collar map — positivity is
NOT required) and the maximum coerced `DEPTH_TO` over the site's rows is
smaller than `END_DEPTH` minus the tolerance `0.01`; its severity is
WARNING iff the site already produced a per-row over-EOH finding in the
same pass, CRITICAL otherwise: `validateEOH` is exactly the per-row
findings (`eohRowFindings`) followed by one `botFinding` per occurring
site in first-occurrence order, where `botFinding` transcribes exactly
that condition and severity choice. -/
theorem C2_bottom_coverage (collars rows : List Row) (t : TableType) :
    validateEOH collars rows t =
      eohRowFindings collars rows t ++ eohBotFindings collars rows t :=
  validateEOH_split collars rows t

/-! ## Claim C4: the interval-geometry validator -/

/-- The distinct resolved site identifiers of the rows, in order of first
occurrence. -/
def siteStrsInOrder (rows : List Row) : List String :=
  rows.foldl (fun acc r =>
    if acc.contains (safeSiteId r) then acc else acc ++ [safeSiteId r]) []

theorem alGet_alPush_self {α β : Type} [DecidableEq α] (m : List (α × List β))
    (k : α) (v : β) :
    alGet (alPush m k v) k = some ((alGet m k).getD [] ++ [v]) := by
  induction m with
  | nil => simp [alPush, alGet]
  | cons p m ih =>
    by_cases hp : p.1 = k
    · simp [alPush, alGet, hp]
    · simp [alPush, alGet, hp, ih]

theorem alGet_alPush_ne {α β : Type} [DecidableEq α] (m : List (α × List β))
    (k k' : α) (v : β) (h : k' ≠ k) :
    alGet (alPush m k v) k' = alGet m k' := by
  have hkk : ¬ (k = k') := fun hh => h hh.symm
  induction m with
  | nil => simp [alPush, alGet, hkk]
  | cons p m ih =>
    by_cases hp : p.1 = k
    · simp [alPush, alGet, hp, hkk]
    · by_cases hk' : p.1 = k' <;> simp [alPush, alGet, hp, hk', h, hkk, ih]

theorem keys_alPush (m : List (α × List β)) [DecidableEq α] (k : α) (v : β) :
    (alPush m k v).map Prod.fst =
      (if k ∈ m.map Prod.fst then m.map Prod.fst
       else m.map Prod.fst ++ [k]) := by
  induction m with
  | nil => simp [alPush]
  | cons p m ih =>
    by_cases hp : p.1 = k
    · simp [alPush, hp]
    · have hkp : ¬ (k = p.1) := fun hh => hp hh.symm
      by_cases hk : k ∈ m.map Prod.fst <;> simp [alPush, hp, hk, hkp, ih]

theorem keys_groupBySite (rows : List Row) :
    (groupBySite rows).map Prod.fst = siteStrsInOrder rows := by
  rw [groupBySite, siteStrsInOrder]
  induction rows using List.reverseRecOn with
  | nil => rfl
  | append_singleton rows r ih =>
    rw [List.foldl_append, List.foldl_append, List.foldl_cons, List.foldl_nil,
      List.foldl_cons, List.foldl_nil, keys_alPush, ih]
    by_cases hk : safeSiteId r ∈
        List.foldl (fun acc r =>
          if acc.contains (safeSiteId r) then acc else acc ++ [safeSiteId r])
          [] rows <;>
      simp [List.elem_eq_mem, hk]

theorem nodup_siteStrsInOrder (rows : List Row) :
    (siteStrsInOrder rows).Nodup := by
  rw [siteStrsInOrder]
  induction rows using List.reverseRecOn with
  | nil => exact List.nodup_nil
  | append_singleton rows r ih =>
    rw [List.foldl_append, List.foldl_cons, List.foldl_nil]
    by_cases hk : (List.foldl (fun acc r =>
        if acc.contains (safeSiteId r) then acc else acc ++ [safeSiteId r])
        [] rows).contains (safeSiteId r) = true
    · rw [if_pos hk]
      exact ih
    · rw [if_neg hk]
      have hmem : safeSiteId r ∉ List.foldl (fun acc r =>
          if acc.contains (safeSiteId r) then acc else acc ++ [safeSiteId r])
          [] rows := by simpa [List.elem_eq_mem] using hk
      rw [List.nodup_append]
      exact ⟨ih, List.nodup_singleton _,
        fun a ha hax => hmem (by rwa [List.mem_singleton.1 hax] at ha)⟩

theorem alGet_groupBySite (rows : List Row) (s : String) :
    alGet (groupBySite rows) s =
      (if rows.filter (fun r => safeSiteId r = s) = [] then none
       else some (rows.filter (fun r => safeSiteId r = s))) := by
  induction rows using List.reverseRecOn with
  | nil => simp [groupBySite, alGet]
  | append_singleton rows r ih =>
    have hstep : groupBySite (rows ++ [r]) =
        alPush (groupBySite rows) (safeSiteId r) r := by
      rw [groupBySite, groupBySite, List.foldl_append, List.foldl_cons,
        List.foldl_nil]
    rw [hstep, List.filter_append, List.filter_cons, List.filter_nil]
    by_cases hs : safeSiteId r = s
    · rw [hs, alGet_alPush_self, ih]
      by_cases hf : rows.filter (fun r => safeSiteId r = s) = [] <;>
        simp [hs, hf]
    · rw [alGet_alPush_ne _ _ _ _ (fun hh => hs hh.symm), ih]
      simp [hs]

theorem assoc_eq_map_of_vals {α β : Type} (m : List (α × β)) (f : α → β)
    (hval : ∀ p ∈ m, p.2 = f p.1) :
    m = (m.map Prod.fst).map (fun k => (k, f k)) := by
  rw [List.map_map]
  induction m with
  | nil => rfl
  | cons p m ih =>
    rw [List.map_cons]
    have hp := hval p (List.mem_cons_self p m)
    have hrest := ih (fun q hq => hval q (List.mem_cons_of_mem p hq))
    rw [← hrest]
    obtain ⟨a, b⟩ := p
    simp only [Function.comp_apply] at hp ⊢
    rw [List.cons_eq_cons]
    exact ⟨by rw [← hp], rfl⟩

/-- The grouping of the interval-geometry validator: one group per
resolved site identifier in first-occurrence order, each group being the
subsequence of rows resolving to that site. -/
theorem groupBySite_eq (rows : List Row) :
    groupBySite rows = (siteStrsInOrder rows).map
      (fun s => (s, rows.filter (fun r => safeSiteId r = s))) := by
  rw [← keys_groupBySite]
  apply assoc_eq_map_of_vals
  intro p hp
  have hnd : ((groupBySite rows).map Prod.fst).Nodup := by
    rw [keys_groupBySite]
    exact nodup_siteStrsInOrder rows
  have hget := entry_alGet_of_nodup (groupBySite rows) hnd p.1 p.2
    (by obtain ⟨a, b⟩ := p; exact hp)
  rw [alGet_groupBySite] at hget
  by_cases hf : rows.filter (fun r => safeSiteId r = p.1) = []
  · rw [if_pos hf] at hget
    cases hget
  · rw [if_neg hf] at hget
    exact (Option.some.injEq _ _ ▸ hget).symm

theorem insertByKey_perm {α : Type} (key : α → ℚ) (x : α) (l : List α) :
    (insertByKey key x l).Perm (x :: l) := by
  induction l with
  | nil => exact List.Perm.refl _
  | cons y ys ih =>
    by_cases h : key x ≤ key y
    · rw [insertByKey, if_pos h]
    · rw [insertByKey, if_neg h]
      exact (ih.cons y).trans (List.Perm.swap x y ys)

theorem sortByKey_perm {α : Type} (key : α → ℚ) (l : List α) :
    (sortByKey key l).Perm l := by
  induction l with
  | nil => exact List.Perm.refl _
  | cons x xs ih =>
    exact (insertByKey_perm key x (sortByKey key xs)).trans (ih.cons x)

theorem mem_sortByKey {α : Type} (key : α → ℚ) (l : List α) (a : α) :
    a ∈ sortByKey key l ↔ a ∈ l :=
  (sortByKey_perm key l).mem_iff

theorem insertByKey_sorted {α : Type} (key : α → ℚ) (x : α) (l : List α)
    (h : l.Pairwise (fun a b => key a ≤ key b)) :
    (insertByKey key x l).Pairwise (fun a b => key a ≤ key b) := by
  induction l with
  | nil => simp [insertByKey]
  | cons y ys ih =>
    rw [List.pairwise_cons] at h
    by_cases hxy : key x ≤ key y
    · rw [insertByKey, if_pos hxy, List.pairwise_cons]
      refine ⟨?_, List.pairwise_cons.2 h⟩
      intro b hb
      rcases List.mem_cons.1 hb with rfl | hb
      · exact hxy
      · exact hxy.trans (h.1 b hb)
    · rw [insertByKey, if_neg hxy, List.pairwise_cons]
      refine ⟨?_, ih h.2⟩
      intro b hb
      rcases List.mem_cons.1 ((insertByKey_perm key x ys).mem_iff.1 hb) with rfl | hb'
      · exact le_of_lt (lt_of_not_le hxy)
      · exact h.1 b hb'

theorem sortByKey_sorted {α : Type} (key : α → ℚ) (l : List α) :
    (sortByKey key l).Pairwise (fun a b => key a ≤ key b) := by
  induction l with
  | nil => simp [sortByKey]
  | cons x xs ih => exact insertByKey_sorted key x _ ih

theorem insertByKey_filter_eq {α : Type} (key : α → ℚ) (x : α) (q : ℚ)
    (hx : key x = q) (l : List α) :
    (insertByKey key x l).filter (fun a => key a = q) =
      x :: l.filter (fun a => key a = q) := by
  induction l with
  | nil => simp [insertByKey, List.filter_cons, hx]
  | cons y ys ih =>
    by_cases hxy : key x ≤ key y
    · rw [insertByKey, if_pos hxy, List.filter_cons, if_pos (by simp [hx])]
    · have hy : ¬ (key y = q) := by
        intro hq
        exact hxy (by rw [hx, ← hq])
      rw [insertByKey, if_neg hxy, List.filter_cons, List.filter_cons]
      simp only [hy, decide_False, if_neg, Bool.false_eq_true, if_false, ih]

theorem insertByKey_filter_ne {α : Type} (key : α → ℚ) (x : α) (q : ℚ)
    (hx : ¬ (key x = q)) (l : List α) :
    (insertByKey key x l).filter (fun a => key a = q) =
      l.filter (fun a => key a = q) := by
  induction l with
  | nil => simp [insertByKey, List.filter_cons, hx]
  | cons y ys ih =>
    by_cases hxy : key x ≤ key y
    · rw [insertByKey, if_pos hxy, List.filter_cons, if_neg (by simp [hx])]
    · rw [insertByKey, if_neg hxy, List.filter_cons, List.filter_cons]
      by_cases hy : key y = q <;> simp [hy, ih]

/-- Ties keep their original relative order: the sorted group restricted to
any one key value equals the original group so restricted. -/
theorem sortByKey_filter_key {α : Type} (key : α → ℚ) (l : List α) (q : ℚ) :
    (sortByKey key l).filter (fun a => key a = q) =
      l.filter (fun a => key a = q) := by
  induction l with
  | nil => rfl
  | cons x xs ih =>
    show (insertByKey key x (sortByKey key xs)).filter _ = _
    by_cases hx : key x = q
    · rw [insertByKey_filter_eq key x q hx, ih, List.filter_cons,
        if_pos (by simp [hx])]
    · rw [insertByKey_filter_ne key x q hx, ih, List.filter_cons,
        if_neg (by simp [hx])]

/-- The (predecessor, current) pairs visited by the sorted walk. -/
def pairsFrom : Option Row → List Row → List (Option Row × Row)
  | _, [] => []
  | prev?, c :: rest => (prev?, c) :: pairsFrom (some c) rest

theorem intervalWalk_eq_pairs (t : TableType) (s : String) :
    ∀ (l : List Row) (prev? : Option Row),
      intervalWalk t s prev? l =
        (pairsFrom prev? l).flatMap (fun pc => intervalCellEmit t s pc.1 pc.2) := by
  intro l
  induction l with
  | nil => intro prev?; rfl
  | cons c rest ih =>
    intro prev?
    rw [intervalWalk, pairsFrom, List.flatMap_cons, ih (some c)]

theorem pairsFrom_snd_mem :
    ∀ (l : List Row) (prev? : Option Row) (pc : Option Row × Row),
      pc ∈ pairsFrom prev? l → pc.2 ∈ l := by
  intro l
  induction l with
  | nil => intro prev? pc h; cases h
  | cons c rest ih =>
    intro prev? pc h
    rcases List.mem_cons.1 h with rfl | h'
    · exact List.mem_cons_self _ _
    · exact List.mem_cons_of_mem _ (ih (some c) pc h')

theorem pairsFrom_of_mem :
    ∀ (l : List Row) (prev? : Option Row) (c : Row), c ∈ l →
      ∃ p?, (p?, c) ∈ pairsFrom prev? l := by
  intro l
  induction l with
  | nil => intro prev? c h; cases h
  | cons x rest ih =>
    intro prev? c h
    rcases List.mem_cons.1 h with rfl | h'
    · exact ⟨prev?, List.mem_cons_self _ _⟩
    · obtain ⟨p?, hp⟩ := ih (some x) c h'
      exact ⟨p?, List.mem_cons_of_mem _ hp⟩

theorem pairsFrom_adj (p c : Row) (l₂ : List Row) :
    ∀ (l₁ : List Row) (prev? : Option Row),
      (some p, c) ∈ pairsFrom prev? (l₁ ++ p :: c :: l₂) := by
  intro l₁
  induction l₁ with
  | nil =>
    intro prev?
    rw [List.nil_append, pairsFrom, pairsFrom]
    exact List.mem_cons_of_mem _ (List.mem_cons_self _ _)
  | cons x l₁ ih =>
    intro prev?
    rw [List.cons_append, pairsFrom]
    exact List.mem_cons_of_mem _ (ih (some x))

theorem pairsFrom_fst_eq (p c : Row) (l₂ : List Row) :
    ∀ (l₁ : List Row) (prev? p? : Option Row),
      ((l₁ ++ p :: c :: l₂).map Row.id).Nodup →
      (p?, c) ∈ pairsFrom prev? (l₁ ++ p :: c :: l₂) → p? = some p := by
  intro l₁
  induction l₁ with
  | nil =>
    intro prev? p? hnd h
    rw [List.nil_append] at hnd h
    rw [List.map_cons, List.map_cons, List.nodup_cons] at hnd
    rw [pairsFrom, pairsFrom] at h
    rcases List.mem_cons.1 h with heq | h'
    · exfalso
      have hcp : c = p := congrArg Prod.snd heq
      exact hnd.1 (hcp ▸ List.mem_cons_self c.id _)
    · rcases List.mem_cons.1 h' with heq | h''
      · exact congrArg Prod.fst heq
      · exfalso
        have hc2 : c ∈ l₂ := pairsFrom_snd_mem l₂ (some c) _ h''
        rw [List.nodup_cons] at hnd
        exact hnd.2.1 (List.mem_map_of_mem Row.id hc2)
  | cons x l₁ ih =>
    intro prev? p? hnd h
    rw [List.cons_append] at hnd h
    rw [List.map_cons, List.nodup_cons] at hnd
    rw [pairsFrom] at h
    rcases List.mem_cons.1 h with heq | h'
    · exfalso
      have hcx : c = x := congrArg Prod.snd heq
      apply hnd.1
      rw [← hcx]
      exact List.mem_map_of_mem Row.id (by
        apply List.mem_append_right
        exact List.mem_cons_of_mem _ (List.mem_cons_self _ _))
    · exact ih (some x) p? hnd.2 h'

theorem string_data_append (a b : String) : (a ++ b).data = a.data ++ b.data := by
  cases a
  cases b
  rfl

theorem mkInvErr_ne_mkOvlErr (t t' : TableType) (s s' : String) (r r' : Row)
    (pt : ℚ) : mkInvErr t s r ≠ mkOvlErr t' s' r' pt := by
  intro h
  have hid : (("inv-" ++ t.toStr ++ "-" ++ r.id : String)).data =
      (("ovl-" ++ t'.toStr ++ "-" ++ r'.id : String)).data :=
    congrArg (fun e => e.id.data) h
  simp only [string_data_append] at hid
  simp at hid

theorem mkZeroErr_col (t : TableType) (s : String) (r : Row) :
    (mkZeroErr t s r).column = some "DEPTH_TO" := rfl

/-- Exactly which errors one position of the sorted walk emits. -/
theorem mem_intervalCellEmit (t : TableType) (s : String) (p? : Option Row)
    (c : Row) (e : ValidationError) :
    e ∈ intervalCellEmit t s p? c ↔
      (e = mkZeroErr t s c ∧ fromKey c = toValOf c) ∨
      (e = mkInvErr t s c ∧ toValOf c < fromKey c) ∨
      (∃ p, p? = some p ∧
        ((e = mkOvlErr t s c (toValOf p) ∧ fromKey c < toValOf p) ∨
         (e = mkGapErr t s c (toValOf p) ∧ toValOf p < fromKey c))) := by
  unfold intervalCellEmit
  simp only [show safeFloat (getField c "DEPTH_TO") = toValOf c from rfl]
  rw [List.mem_append, List.mem_append, or_assoc]
  refine or_congr ?_ (or_congr ?_ ?_)
  · by_cases h1 : fromKey c = toValOf c <;> simp [h1]
  · by_cases h2 : toValOf c < fromKey c <;> simp [h2]
  · cases p? with
    | none => simp
    | some p =>
      simp only [show safeFloat (getField p "DEPTH_TO") = toValOf p from rfl]
      by_cases h3 : fromKey c < toValOf p
      · have h4 : ¬ toValOf p < fromKey c := fun hh =>
          absurd (h3.trans hh) (lt_irrefl _)
        simp [h3, h4]
      · by_cases h4 : toValOf p < fromKey c <;> simp [h3, h4]

theorem walk_siteId (t : TableType) (s : String) (l : List Row)
    (prev? : Option Row) (e : ValidationError)
    (h : e ∈ intervalWalk t s prev? l) : e.siteId = s := by
  rw [intervalWalk_eq_pairs, List.mem_flatMap] at h
  obtain ⟨pc, _, he⟩ := h
  rcases (mem_intervalCellEmit t s pc.1 pc.2 e).1 he with ⟨rfl, _⟩ | h' | h'
  · rfl
  · rw [h'.1]
    rfl
  · obtain ⟨p, _, hh | hh⟩ := h' <;> rw [hh.1] <;> rfl

/-- Membership in the full interval-geometry output reduces to membership
in the walk of the error's own site group. -/
theorem mem_validateIntervals (rows : List Row) (t : TableType)
    (e : ValidationError) (s : String) (hsid : e.siteId = s) :
    e ∈ validateIntervals rows t ↔
      (s ∈ siteStrsInOrder rows ∧
       e ∈ intervalWalk t s none
         (sortByKey fromKey (rows.filter (fun r => safeSiteId r = s)))) := by
  rw [validateIntervals, groupBySite_eq, List.flatMap_map, List.mem_flatMap]
  constructor
  · rintro ⟨s', hs', he⟩
    have : e.siteId = s' := walk_siteId t s' _ none e he
    have hss : s' = s := by rw [← this, hsid]
    subst hss
    exact ⟨hs', he⟩
  · rintro ⟨hs, he⟩
    exact ⟨s, hs, he⟩

theorem mem_siteStrsInOrder (rows : List Row) (s : String) :
    s ∈ siteStrsInOrder rows ↔ ∃ r ∈ rows, safeSiteId r = s := by
  have h1 : s ∈ siteStrsInOrder rows ↔
      ¬ (alGet (groupBySite rows) s = none) := by
    rw [alGet_eq_none_iff, keys_groupBySite]
    tauto
  rw [h1, alGet_groupBySite]
  by_cases hf : rows.filter (fun r => safeSiteId r = s) = []
  · rw [List.filter_eq_nil] at hf
    simp only [List.filter_eq_nil.2 hf, if_pos rfl]
    simpa using hf
  · rw [if_neg hf]
    simp only [ne_eq, not_false_eq_true, true_iff, reduceCtorEq]
    obtain ⟨x, hx⟩ := List.exists_mem_of_ne_nil _ hf
    have hx' := List.mem_filter.1 hx
    exact ⟨x, hx'.1, by simpa using hx'.2⟩

theorem group_ids_nodup (rows : List Row) (s : String)
    (hnd : (rows.map Row.id).Nodup) :
    ((sortByKey fromKey (rows.filter (fun r => safeSiteId r = s))).map
      Row.id).Nodup := by
  have hsub : (rows.filter (fun r => safeSiteId r = s)).Sublist rows :=
    List.filter_sublist _
  have h2 := hnd.sublist (hsub.map Row.id)
  exact (((sortByKey_perm fromKey _).map Row.id).nodup_iff).2 h2

theorem walk_zero_inv_iff (t : TableType) (s : String) (l : List Row)
    (hnd : (l.map Row.id).Nodup) (c : Row) (hc : c ∈ l) :
    ((mkZeroErr t s c ∈ intervalWalk t s none l) ↔ fromKey c = toValOf c) ∧
    ((mkInvErr t s c ∈ intervalWalk t s none l) ↔ toValOf c < fromKey c) := by
  have hinj := List.inj_on_of_nodup_map hnd
  rw [intervalWalk_eq_pairs]
  constructor
  · constructor
    · intro h
      rw [List.mem_flatMap] at h
      obtain ⟨⟨p?, c'⟩, hpc, he⟩ := h
      have hc' : c' ∈ l := pairsFrom_snd_mem l none _ hpc
      rcases (mem_intervalCellEmit t s p? c' _).1 he with
        ⟨heq, hcond⟩ | ⟨heq, _⟩ | ⟨p, _, ⟨heq, _⟩ | ⟨heq, _⟩⟩
      · have hcc : c = c' := hinj hc hc' (congrArg ValidationError.rowId heq)
        rw [hcc]
        exact hcond
      · have hcol : (some "DEPTH_TO" : Option String) = some "DEPTH_FROM" :=
          congrArg ValidationError.column heq
        exact absurd hcol (by decide)
      · have hcol : (some "DEPTH_TO" : Option String) = some "DEPTH_FROM" :=
          congrArg ValidationError.column heq
        exact absurd hcol (by decide)
      · have hcol : (some "DEPTH_TO" : Option String) = some "DEPTH_FROM" :=
          congrArg ValidationError.column heq
        exact absurd hcol (by decide)
    · intro hcond
      rw [List.mem_flatMap]
      obtain ⟨p?, hp⟩ := pairsFrom_of_mem l none c hc
      exact ⟨(p?, c), hp,
        (mem_intervalCellEmit t s p? c _).2 (Or.inl ⟨rfl, hcond⟩)⟩
  · constructor
    · intro h
      rw [List.mem_flatMap] at h
      obtain ⟨⟨p?, c'⟩, hpc, he⟩ := h
      have hc' : c' ∈ l := pairsFrom_snd_mem l none _ hpc
      rcases (mem_intervalCellEmit t s p? c' _).1 he with
        ⟨heq, _⟩ | ⟨heq, hcond⟩ | ⟨p, _, ⟨heq, _⟩ | ⟨heq, _⟩⟩
      · have hcol : (some "DEPTH_FROM" : Option String) = some "DEPTH_TO" :=
          congrArg ValidationError.column heq
        exact absurd hcol (by decide)
      · have hcc : c = c' := hinj hc hc' (congrArg ValidationError.rowId heq)
        rw [hcc]
        exact hcond
      · exact absurd heq (mkInvErr_ne_mkOvlErr t t s s c c' (toValOf p))
      · have hsev : Severity.CRITICAL = Severity.WARNING :=
          congrArg ValidationError.severity heq
        exact absurd hsev (by decide)
    · intro hcond
      rw [List.mem_flatMap]
      obtain ⟨p?, hp⟩ := pairsFrom_of_mem l none c hc
      exact ⟨(p?, c), hp,
        (mem_intervalCellEmit t s p? c _).2 (Or.inr (Or.inl ⟨rfl, hcond⟩))⟩

theorem walk_pair_iff (t : TableType) (s : String) (l₁ : List Row)
    (p c : Row) (l₂ : List Row)
    (hnd : ((l₁ ++ p :: c :: l₂).map Row.id).Nodup) :
    ((mkOvlErr t s c (toValOf p) ∈
        intervalWalk t s none (l₁ ++ p :: c :: l₂)) ↔
      fromKey c < toValOf p) ∧
    ((mkGapErr t s c (toValOf p) ∈
        intervalWalk t s none (l₁ ++ p :: c :: l₂)) ↔
      toValOf p < fromKey c) := by
  have hinj := List.inj_on_of_nodup_map hnd
  have hcmem : c ∈ l₁ ++ p :: c :: l₂ :=
    List.mem_append_right _ (List.mem_cons_of_mem _ (List.mem_cons_self _ _))
  rw [intervalWalk_eq_pairs]
  constructor
  · constructor
    · intro h
      rw [List.mem_flatMap] at h
      obtain ⟨⟨p?, c'⟩, hpc, he⟩ := h
      have hc' : c' ∈ l₁ ++ p :: c :: l₂ := pairsFrom_snd_mem _ none _ hpc
      rcases (mem_intervalCellEmit t s p? c' _).1 he with
        ⟨heq, _⟩ | ⟨heq, _⟩ | ⟨p', hp?, ⟨heq, hcond⟩ | ⟨heq, _⟩⟩
      · have hcol : (some "DEPTH_FROM" : Option String) = some "DEPTH_TO" :=
          congrArg ValidationError.column heq
        exact absurd hcol (by decide)
      · exact absurd heq.symm (mkInvErr_ne_mkOvlErr t t s s c' c (toValOf p))
      · have hcc : c = c' := hinj hcmem hc' (congrArg ValidationError.rowId heq)
        subst hcc
        have hpp : some p' = some p := by
          rw [← hp?]
          exact pairsFrom_fst_eq p c l₂ l₁ none p? hnd hpc
        rw [Option.some.injEq] at hpp
        rw [← hpp]
        exact hcond
      · have hsev : Severity.CRITICAL = Severity.WARNING :=
          congrArg ValidationError.severity heq
        exact absurd hsev (by decide)
    · intro hcond
      rw [List.mem_flatMap]
      exact ⟨(some p, c), pairsFrom_adj p c l₂ l₁ none,
        (mem_intervalCellEmit t s (some p) c _).2
          (Or.inr (Or.inr ⟨p, rfl, Or.inl ⟨rfl, hcond⟩⟩))⟩
  · constructor
    · intro h
      rw [List.mem_flatMap] at h
      obtain ⟨⟨p?, c'⟩, hpc, he⟩ := h
      have hc' : c' ∈ l₁ ++ p :: c :: l₂ := pairsFrom_snd_mem _ none _ hpc
      rcases (mem_intervalCellEmit t s p? c' _).1 he with
        ⟨heq, _⟩ | ⟨heq, _⟩ | ⟨p', hp?, ⟨heq, _⟩ | ⟨heq, hcond⟩⟩
      · have hcol : (some "DEPTH_FROM" : Option String) = some "DEPTH_TO" :=
          congrArg ValidationError.column heq
        exact absurd hcol (by decide)
      · have hsev : Severity.WARNING = Severity.CRITICAL :=
          congrArg ValidationError.severity heq
        exact absurd hsev (by decide)
      · have hsev : Severity.WARNING = Severity.CRITICAL :=
          congrArg ValidationError.severity heq
        exact absurd hsev (by decide)
      · have hcc : c = c' := hinj hcmem hc' (congrArg ValidationError.rowId heq)
        subst hcc
        have hpp : some p' = some p := by
          rw [← hp?]
          exact pairsFrom_fst_eq p c l₂ l₁ none p? hnd hpc
        rw [Option.some.injEq] at hpp
        rw [← hpp]
        exact hcond
    · intro hcond
      rw [List.mem_flatMap]
      exact ⟨(some p, c), pairsFrom_adj p c l₂ l₁ none,
        (mem_intervalCellEmit t s (some p) c _).2
          (Or.inr (Or.inr ⟨p, rfl, Or.inr ⟨rfl, hcond⟩⟩))⟩

/-- **C4.** The interval-geometry validator groups rows by resolved site
identifier (first-occurrence order) and stably sorts each group ascending
by coerced `DEPTH_FROM` (ties keep original relative order); walking each
sorted group it emits a WARNING zero-length error iff
`DEPTH_FROM = DEPTH_TO`, a CRITICAL inverted error iff
`DEPTH_FROM > DEPTH_TO`, and — for every row with a predecessor in its
sorted group — a CRITICAL overlap error iff its `DEPTH_FROM` is strictly
below the predecessor's `DEPTH_TO` and a WARNING gap error iff strictly
above, equality producing neither; the emissions are independent. -/
theorem C4_interval_geometry (rows : List Row) (t : TableType) (s : String)
    (hnd : (rows.map Row.id).Nodup) :
    validateIntervals rows t = (siteStrsInOrder rows).flatMap
      (fun p => intervalWalk t p none
        (sortByKey fromKey (rows.filter (fun r => safeSiteId r = p)))) ∧
    (sortByKey fromKey (rows.filter (fun r => safeSiteId r = s))).Pairwise
      (fun a b => fromKey a ≤ fromKey b) ∧
    (∀ q, (sortByKey fromKey (rows.filter (fun r => safeSiteId r = s))).filter
        (fun r => fromKey r = q) =
      (rows.filter (fun r => safeSiteId r = s)).filter
        (fun r => fromKey r = q)) ∧
    (∀ c, c ∈ rows → safeSiteId c = s →
      ((mkZeroErr t s c ∈ validateIntervals rows t ↔ fromKey c = toValOf c) ∧
       (mkInvErr t s c ∈ validateIntervals rows t ↔ toValOf c < fromKey c))) ∧
    (∀ l₁ p c l₂,
      sortByKey fromKey (rows.filter (fun r => safeSiteId r = s)) =
        l₁ ++ p :: c :: l₂ →
      ((mkOvlErr t s c (toValOf p) ∈ validateIntervals rows t ↔
          fromKey c < toValOf p) ∧
       (mkGapErr t s c (toValOf p) ∈ validateIntervals rows t ↔
          toValOf p < fromKey c))) := by
  have hg := group_ids_nodup rows s hnd
  refine ⟨?_, sortByKey_sorted _ _, fun q => sortByKey_filter_key _ _ q, ?_, ?_⟩
  · rw [validateIntervals, groupBySite_eq, List.flatMap_map]
  · intro c hc hcs
    have hcg : c ∈ sortByKey fromKey (rows.filter (fun r => safeSiteId r = s)) :=
      (mem_sortByKey _ _ c).2 (List.mem_filter.2 ⟨hc, by simpa using hcs⟩)
    have hsite : s ∈ siteStrsInOrder rows :=
      (mem_siteStrsInOrder rows s).2 ⟨c, hc, hcs⟩
    have hwalk := walk_zero_inv_iff t s _ hg c hcg
    constructor
    · rw [mem_validateIntervals rows t _ s rfl]
      simp only [hsite, true_and]
      exact hwalk.1
    · rw [mem_validateIntervals rows t _ s rfl]
      simp only [hsite, true_and]
      exact hwalk.2
  · intro l₁ p c l₂ hsplit
    have hcg : c ∈ sortByKey fromKey (rows.filter (fun r => safeSiteId r = s)) := by
      rw [hsplit]
      exact List.mem_append_right _
        (List.mem_cons_of_mem _ (List.mem_cons_self _ _))
    have hcf := List.mem_filter.1 ((mem_sortByKey _ _ c).1 hcg)
    have hsite : s ∈ siteStrsInOrder rows :=
      (mem_siteStrsInOrder rows s).2 ⟨c, hcf.1, by simpa using hcf.2⟩
    have hg' : ((l₁ ++ p :: c :: l₂).map Row.id).Nodup := by
      rw [← hsplit]
      exact hg
    have hwalk := walk_pair_iff t s l₁ p c l₂ hg'
    constructor
    · rw [mem_validateIntervals rows t _ s rfl, hsplit]
      simp only [hsite, true_and]
      exact hwalk.1
    · rw [mem_validateIntervals rows t _ s rfl, hsplit]
      simp only [hsite, true_and]
      exact hwalk.2

/-- Row `a` of the spec's geometry example. -/
def geoRowA : Row :=
  ⟨"a", [("SITE_ID", .str "S1"), ("DEPTH_FROM", .num 10), ("DEPTH_TO", .num 20)]⟩

/-- Row `b` of the spec's geometry example. -/
def geoRowB : Row :=
  ⟨"b", [("SITE_ID", .str "S1"), ("DEPTH_FROM", .num 20), ("DEPTH_TO", .num 30)]⟩

/-- Row `c` of the spec's geometry example. -/
def geoRowC : Row :=
  ⟨"c", [("SITE_ID", .str "S1"), ("DEPTH_FROM", .num 15), ("DEPTH_TO", .num 25)]⟩

/-- Concrete instance of C4 (the spec's example): rows
`[{10,20},{20,30},{15,25}]` sort to `[{10,20},{15,25},{20,30}]` and both
adjacent pairs are overlaps. -/
theorem C4_interval_geometry_witness :
    sortByKey fromKey ([geoRowA, geoRowB, geoRowC].filter
      (fun r => safeSiteId r = "S1")) = [geoRowA, geoRowC, geoRowB] ∧
    mkOvlErr .LITHOLOGY "S1" geoRowC (toValOf geoRowA) ∈
      validateIntervals [geoRowA, geoRowB, geoRowC] .LITHOLOGY ∧
    mkOvlErr .LITHOLOGY "S1" geoRowB (toValOf geoRowC) ∈
      validateIntervals [geoRowA, geoRowB, geoRowC] .LITHOLOGY := by
  have hsort : sortByKey fromKey ([geoRowA, geoRowB, geoRowC].filter
      (fun r => safeSiteId r = "S1")) = [geoRowA, geoRowC, geoRowB] :=
    of_decide_eq_true (by with_unfolding_all rfl)
  refine ⟨hsort, ?_, ?_⟩
  · exact ((C4_interval_geometry [geoRowA, geoRowB, geoRowC] .LITHOLOGY "S1"
      (of_decide_eq_true (by with_unfolding_all rfl))).2.2.2.2
      [] geoRowA geoRowC [geoRowB] hsort).1.2
      (of_decide_eq_true (by with_unfolding_all rfl))
  · exact ((C4_interval_geometry [geoRowA, geoRowB, geoRowC] .LITHOLOGY "S1"
      (of_decide_eq_true (by with_unfolding_all rfl))).2.2.2.2
      [geoRowA] geoRowC geoRowB [] hsort).1.2
      (of_decide_eq_true (by with_unfolding_all rfl))

/-! ## Claim C5: the error aggregator -/

/-- The distinct aggregation keys of the error list, in order of first
occurrence. -/
def groupKeys (errs : List ValidationError) : List String :=
  errs.foldl (fun ks e =>
    if ks.contains (keyOf e) then ks else ks ++ [keyOf e]) []

/-- Declarative description of the aggregator, following the spec: one
output entry per distinct key in first-occurrence order; a singleton group
passes through unchanged, a larger group collapses to its first member
with the comma-joined row ids (in input order) and a templated message. -/
def groupErrorsSpec (errs : List ValidationError) : List ValidationError :=
  (groupKeys errs).filterMap (fun k =>
    match errs.filter (fun e => keyOf e = k) with
    | [] => none
    | [e] => some e
    | e :: rest => some { e with
        rowId := joinSep "," ((e :: rest).map (fun x => x.rowId))
        message := groupedMessage e (e :: rest).length })

theorem groupStep_eq_none
    (m : List (String × (ValidationError × Nat × List String)))
    (err : ValidationError) (h : alGet m (keyOf err) = none) :
    groupStep m err = alSet m (keyOf err) (err, 1, [err.rowId]) := by
  unfold groupStep
  dsimp only
  rw [h]

theorem groupStep_eq_some
    (m : List (String × (ValidationError × Nat × List String)))
    (err : ValidationError) (st : ValidationError × Nat × List String)
    (h : alGet m (keyOf err) = some st) :
    groupStep m err =
      alSet m (keyOf err) (st.1, st.2.1 + 1, st.2.2 ++ [err.rowId]) := by
  unfold groupStep
  dsimp only
  rw [h]

theorem keys_groupStep (m : List (String × (ValidationError × Nat × List String)))
    (err : ValidationError) :
    (groupStep m err).map Prod.fst =
      (if keyOf err ∈ m.map Prod.fst then m.map Prod.fst
       else m.map Prod.fst ++ [keyOf err]) := by
  cases hg : alGet m (keyOf err) with
  | none =>
    have hmem : keyOf err ∉ m.map Prod.fst := (alGet_eq_none_iff m _).1 hg
    rw [groupStep_eq_none m err hg, if_neg hmem]
    exact keys_alSet_new m _ _ hg
  | some st =>
    have hmem : keyOf err ∈ m.map Prod.fst := alGet_mem_keys m _ st hg
    rw [groupStep_eq_some m err st hg, if_pos hmem]
    exact keys_alSet_mem m _ _ (by rw [hg]; exact fun hh => by cases hh)

theorem keys_foldl_groupStep (errs : List ValidationError) :
    (errs.foldl groupStep []).map Prod.fst = groupKeys errs := by
  rw [groupKeys]
  induction errs using List.reverseRecOn with
  | nil => rfl
  | append_singleton errs err ih =>
    rw [List.foldl_append, List.foldl_append, List.foldl_cons, List.foldl_nil,
      List.foldl_cons, List.foldl_nil, keys_groupStep, ih]
    by_cases hk : keyOf err ∈
        List.foldl (fun ks e =>
          if ks.contains (keyOf e) then ks else ks ++ [keyOf e]) [] errs <;>
      simp [List.elem_eq_mem, hk]

theorem nodup_groupKeys (errs : List ValidationError) :
    (groupKeys errs).Nodup := by
  rw [groupKeys]
  induction errs using List.reverseRecOn with
  | nil => exact List.nodup_nil
  | append_singleton errs err ih =>
    rw [List.foldl_append, List.foldl_cons, List.foldl_nil]
    by_cases hk : (List.foldl (fun ks e =>
        if ks.contains (keyOf e) then ks else ks ++ [keyOf e])
        [] errs).contains (keyOf err) = true
    · rw [if_pos hk]
      exact ih
    · rw [if_neg hk]
      have hmem : keyOf err ∉ List.foldl (fun ks e =>
          if ks.contains (keyOf e) then ks else ks ++ [keyOf e]) [] errs := by
        simpa [List.elem_eq_mem] using hk
      rw [List.nodup_append]
      exact ⟨ih, List.nodup_singleton _,
        fun a ha hax => hmem (by rwa [List.mem_singleton.1 hax] at ha)⟩

theorem alGet_foldl_groupStep (errs : List ValidationError) (k : String) :
    alGet (errs.foldl groupStep []) k =
      (match errs.filter (fun e => keyOf e = k) with
       | [] => none
       | e :: rest =>
         some (e, (e :: rest).length, (e :: rest).map (fun x => x.rowId))) := by
  induction errs using List.reverseRecOn with
  | nil => simp [alGet]
  | append_singleton errs err ih =>
    rw [List.foldl_append, List.foldl_cons, List.foldl_nil, List.filter_append,
      List.filter_cons, List.filter_nil]
    by_cases hke : keyOf err = k
    · simp only [hke, decide_True, if_true]
      cases hf : errs.filter (fun e => keyOf e = k) with
      | nil =>
        rw [hf] at ih
        dsimp only at ih
        rw [groupStep_eq_none _ err (by rw [hke]; exact ih),
          hke, alGet_alSet_self]
        simp
      | cons e rest =>
        rw [hf] at ih
        dsimp only at ih
        rw [groupStep_eq_some _ err
          (e, (e :: rest).length, (e :: rest).map (fun x => x.rowId))
          (by rw [hke]; exact ih), hke, alGet_alSet_self]
        simp [hf]
    · simp only [hke, decide_False, if_false, Bool.false_eq_true,
        List.append_nil]
      have hne : k ≠ keyOf err := fun hh => hke hh.symm
      cases hg : alGet (errs.foldl groupStep []) (keyOf err) with
      | none =>
        rw [groupStep_eq_none _ err hg, alGet_alSet_ne _ _ _ _ hne]
        exact ih
      | some st =>
        rw [groupStep_eq_some _ err st hg, alGet_alSet_ne _ _ _ _ hne]
        exact ih

/-- The aggregation record of one key: first member, size, row ids. -/
def groupData (errs : List ValidationError) (k : String) :
    ValidationError × Nat × List String :=
  match errs.filter (fun e => keyOf e = k) with
  | [] => (mkStructErr .COLLAR "", 0, [])
  | e :: rest => (e, (e :: rest).length, (e :: rest).map (fun x => x.rowId))

theorem filterMap_eq_map_of_forall {α β : Type} (l : List α) (f : α → Option β)
    (g : α → β) (h : ∀ a ∈ l, f a = some (g a)) : l.filterMap f = l.map g := by
  induction l with
  | nil => rfl
  | cons a l ih =>
    rw [List.filterMap_cons, h a (List.mem_cons_self a l), List.map_cons,
      ih (fun b hb => h b (List.mem_cons_of_mem a hb))]

theorem groupKeys_filter_ne_nil (errs : List ValidationError) (k : String)
    (h : k ∈ groupKeys errs) : errs.filter (fun e => keyOf e = k) ≠ [] := by
  intro hnil
  have hnone : alGet (errs.foldl groupStep []) k = none := by
    rw [alGet_foldl_groupStep, hnil]
  have := (alGet_eq_none_iff _ k).1 hnone
  rw [keys_foldl_groupStep] at this
  exact this h

/-- The aggregator equals its declarative description. -/
theorem groupErrors_eq_spec (errs : List ValidationError) :
    groupErrors errs = groupErrorsSpec errs := by
  have hnd : ((errs.foldl groupStep []).map Prod.fst).Nodup := by
    rw [keys_foldl_groupStep]
    exact nodup_groupKeys errs
  have hvals : ∀ p ∈ errs.foldl groupStep [], p.2 = groupData errs p.1 := by
    intro p hp
    have hget := entry_alGet_of_nodup _ hnd p.1 p.2
      (by obtain ⟨a, b⟩ := p; exact hp)
    rw [alGet_foldl_groupStep] at hget
    unfold groupData
    cases hf : errs.filter (fun e => keyOf e = p.1) with
    | nil =>
      rw [hf] at hget
      cases hget
    | cons e rest =>
      rw [hf] at hget
      dsimp only at hget ⊢
      exact (Option.some.injEq _ _ ▸ hget).symm
  have hm : errs.foldl groupStep [] =
      (groupKeys errs).map (fun k => (k, groupData errs k)) := by
    rw [← keys_foldl_groupStep]
    exact assoc_eq_map_of_vals _ _ hvals
  unfold groupErrors groupErrorsSpec
  rw [hm, List.map_map]
  symm
  apply filterMap_eq_map_of_forall
  intro k hk
  have hne := groupKeys_filter_ne_nil errs k hk
  cases hf : errs.filter (fun e => keyOf e = k) with
  | nil => exact absurd hf hne
  | cons e rest =>
    cases rest with
    | nil =>
      simp only [Function.comp_apply, groupData, hf]
      rfl
    | cons r rest' =>
      simp only [Function.comp_apply, groupData, hf]
      rw [if_pos (by simp : (e :: r :: rest').length > 1)]

/-- The last character of an aggregation key whose category is `"eoh"`. -/
theorem keyOf_last_eoh (e : ValidationError) (h : errCategory e = "eoh") :
    (keyOf e).data.reverse.head? = some 'h' := by
  have he : ("eoh" : String).data = ['e', 'o', 'h'] := rfl
  have hbar : ("|" : String).data = ['|'] := rfl
  simp [keyOf, joinSep, string_data_append, h, he, hbar, List.reverse_append]

/-- The last character of an aggregation key whose category is `"eohbot"`. -/
theorem keyOf_last_eohbot (e : ValidationError) (h : errCategory e = "eohbot") :
    (keyOf e).data.reverse.head? = some 't' := by
  have he : ("eohbot" : String).data = ['e', 'o', 'h', 'b', 'o', 't'] := rfl
  have hbar : ("|" : String).data = ['|'] := rfl
  simp [keyOf, joinSep, string_data_append, h, he, hbar, List.reverse_append]

theorem keyOf_ne_of_eoh_eohbot (e1 e2 : ValidationError)
    (h1 : errCategory e1 = "eoh") (h2 : errCategory e2 = "eohbot") :
    keyOf e1 ≠ keyOf e2 := by
  intro hk
  have a1 := keyOf_last_eoh e1 h1
  have a2 := keyOf_last_eohbot e2 h2
  rw [hk, a2] at a1
  cases a1

/-- First error of the C5 counterexample: siteId `"A"`, column `"B|C"`. -/
def ceKeyA : ValidationError :=
  { id := "x-1", table := .LITHOLOGY, rowId := "r1", siteId := "A",
    column := some "B|C", message := "m1", severity := .CRITICAL,
    type := .VALUE }

/-- Second error of the C5 counterexample: siteId `"A|B"`, column `"C"`. -/
def ceKeyB : ValidationError :=
  { id := "x-2", table := .LITHOLOGY, rowId := "r2", siteId := "A|B",
    column := some "C", message := "m2", severity := .CRITICAL,
    type := .VALUE }

/-- **C5 (counterexample).** The claim says the aggregator partitions by
the tuple `(table, siteId, column, type, severity, category)`.  The code
joins the components with `'|'`, so two errors whose tuples differ
(`siteId "A"`/`column "B|C"` versus `siteId "A|B"`/`column "C"`) get the
same key string and are merged into one entry, instead of passing through
as two singleton groups. -/
theorem C5_aggregator_counterexample :
    ceKeyA.siteId ≠ ceKeyB.siteId ∧
    keyOf ceKeyA = keyOf ceKeyB ∧
    (groupErrors [ceKeyA, ceKeyB]).length = 1 ∧
    groupErrors [ceKeyA, ceKeyB] ≠ [ceKeyA, ceKeyB] :=
  ⟨of_decide_eq_true (by with_unfolding_all rfl),
   of_decide_eq_true (by with_unfolding_all rfl),
   of_decide_eq_true (by with_unfolding_all rfl),
   of_decide_eq_true (by with_unfolding_all rfl)⟩

/-- The 50 same-site over-EOH errors of the spec's aggregation example. -/
def eoh50 : List ValidationError :=
  (List.range 50).map (fun i =>
    { id := "eoh-LITHOLOGY-r" ++ toString i
      table := .LITHOLOGY
      rowId := "r" ++ toString i
      siteId := "S1"
      column := some "DEPTH_TO"
      message := "m"
      severity := .CRITICAL
      type := .LOGIC })

set_option maxRecDepth 10000 in
/-- **C5 (amended).** The aggregator partitions the error list by the
`'|'`-joined string of `(table, siteId, column or empty, type, severity,
check-category)` — which coincides with the tuple whenever `siteId` and
`column` contain no `'|'` — keeping keys in first-occurrence order; every
group with more than one member collapses to a single error whose `rowId`
comma-joins the group's row ids in input order, singleton groups pass
through unchanged (`groupErrorsSpec` transcribes exactly this); `"eoh"`
(exceeded) findings never share a key with `"eohbot"` (bottom-coverage)
findings; and 50 same-site over-EOH errors collapse to one entry listing
all 50 row ids. -/
theorem C5_error_aggregator :
    (∀ errs : List ValidationError, groupErrors errs = groupErrorsSpec errs) ∧
    (∀ e1 e2 : ValidationError, errCategory e1 = "eoh" →
      errCategory e2 = "eohbot" → keyOf e1 ≠ keyOf e2) ∧
    (groupErrors eoh50).length = 1 ∧
    (groupErrors eoh50).map (fun e => e.rowId) =
      [joinSep "," ((List.range 50).map (fun i => "r" ++ toString i))] := by
  refine ⟨groupErrors_eq_spec, keyOf_ne_of_eoh_eohbot, ?_, ?_⟩
  · exact of_decide_eq_true (by with_unfolding_all rfl)
  · exact of_decide_eq_true (by with_unfolding_all rfl)

/-- Concrete instance of C5 (amended): the aggregator on a two-element
collapsing list matches its declarative description, and the concrete
`"eoh"`/`"eohbot"` keys differ. -/
theorem C5_error_aggregator_witness :
    groupErrors [ceKeyA, ceKeyB] = groupErrorsSpec [ceKeyA, ceKeyB] ∧
    keyOf { ceKeyA with id := "eoh-LITHOLOGY-r1" } ≠
      keyOf { ceKeyA with id := "eohbot-LITHOLOGY-S1" } := by
  constructor
  · exact C5_error_aggregator.1 [ceKeyA, ceKeyB]
  · exact C5_error_aggregator.2.1 _ _
      (of_decide_eq_true (by with_unfolding_all rfl))
      (of_decide_eq_true (by with_unfolding_all rfl))

/-! ## Claim C1: unconfigured tables -/

theorem cellErrors_table (t : TableType) (r : Row) (col : ColumnConfig)
    (libs : List CodeLibrary) (e : ValidationError)
    (he : e ∈ cellErrors t r col libs) : e.table = t := by
  unfold cellErrors rangeCell lookupCell at he
  aesop

theorem validateValues_table (rows : List Row) (config : TableConfig)
    (libs : List CodeLibrary) (e : ValidationError)
    (he : e ∈ validateValues rows config libs) : e.table = config.tableType := by
  unfold validateValues at he
  rw [List.mem_flatMap] at he
  obtain ⟨r, _, he⟩ := he
  rw [List.mem_flatMap] at he
  obtain ⟨col, _, he⟩ := he
  exact cellErrors_table _ r col libs e he

theorem validateStructure_table (rows : List Row) (config : TableConfig)
    (e : ValidationError) (he : e ∈ validateStructure rows config) :
    e.table = config.tableType := by
  cases rows with
  | nil => cases he
  | cons r0 rest =>
    rw [validateStructure_cons, List.mem_map] at he
    obtain ⟨col, _, rfl⟩ := he
    rfl

theorem validateIntegrity_table (collars rows : List Row) (t : TableType)
    (e : ValidationError) (he : e ∈ validateIntegrity collars rows t) :
    e.table = t := by
  unfold validateIntegrity at he
  rw [List.mem_filterMap] at he
  obtain ⟨r, _, hr⟩ := he
  split at hr
  · cases hr
  · injection hr with hh
    rw [← hh]
    rfl

theorem eohBotFindings_table (collars rows : List Row) (t : TableType)
    (e : ValidationError) (h : e ∈ eohBotFindings collars rows t) :
    e.table = t := by
  rw [eohBotFindings, List.mem_filterMap] at h
  obtain ⟨s, _, hs⟩ := h
  unfold botFinding at hs
  cases h1 : mx rows s with
  | none => rw [h1] at hs; dsimp only at hs; cases hs
  | some deepest =>
    cases h2 : alGet (collarMapOf collars) s with
    | none => rw [h1, h2] at hs; dsimp only at hs; cases hs
    | some total =>
      rw [h1, h2] at hs
      dsimp only at hs
      split at hs
      · injection hs with hh
        rw [← hh]
        rfl
      · cases hs

theorem validateEOH_table (collars rows : List Row) (t : TableType)
    (e : ValidationError) (he : e ∈ validateEOH collars rows t) :
    e.table = t := by
  rw [validateEOH_split, List.mem_append] at he
  rcases he with he | he
  · rw [eohRowFindings, List.mem_filterMap] at he
    obtain ⟨r, _, hr⟩ := he
    obtain ⟨d, _, _, _, rfl⟩ := rowFinding_eq_some hr
    rfl
  · exact eohBotFindings_table collars rows t e he

theorem validateIntervals_table (rows : List Row) (t : TableType)
    (e : ValidationError) (he : e ∈ validateIntervals rows t) :
    e.table = t := by
  rw [validateIntervals, List.mem_flatMap] at he
  obtain ⟨⟨s, g⟩, _, he⟩ := he
  rw [intervalWalk_eq_pairs, List.mem_flatMap] at he
  obtain ⟨⟨p?, c⟩, _, he⟩ := he
  rcases (mem_intervalCellEmit t s p? c e).1 he with
    ⟨rfl, _⟩ | ⟨rfl, _⟩ | ⟨p, _, ⟨rfl, _⟩ | ⟨rfl, _⟩⟩ <;> rfl

theorem validateCollarDepths_table (collars : List Row) (e : ValidationError)
    (he : e ∈ validateCollarDepths collars) : e.table = .COLLAR := by
  unfold validateCollarDepths at he
  rw [List.mem_filterMap] at he
  obtain ⟨c, _, hc⟩ := he
  split at hc
  · injection hc with hh
    rw [← hh]
    rfl
  · cases hc

theorem surveyEohErrors_table (cm : List (Scalar × ℚ)) (surveyData : List Row)
    (e : ValidationError) (he : e ∈ surveyEohErrors cm surveyData) :
    e.table = .SURVEY := by
  unfold surveyEohErrors at he
  rw [List.mem_filterMap] at he
  obtain ⟨r, _, hr⟩ := he
  split at hr
  · split at hr
    · injection hr with hh
      rw [← hh]
      rfl
    · cases hr
  · cases hr

theorem groupErrors_table (l : List ValidationError) (e : ValidationError)
    (he : e ∈ groupErrors l) : ∃ e' ∈ l, e'.table = e.table := by
  rw [groupErrors_eq_spec] at he
  unfold groupErrorsSpec at he
  rw [List.mem_filterMap] at he
  obtain ⟨k, _, hsome⟩ := he
  cases hf : l.filter (fun x => keyOf x = k) with
  | nil => rw [hf] at hsome; cases hsome
  | cons x rest =>
    have hx : x ∈ l :=
      (List.mem_filter.1 (hf ▸ List.mem_cons_self x rest)).1
    rw [hf] at hsome
    cases rest with
    | nil =>
      dsimp only at hsome
      injection hsome with hh
      exact ⟨x, hx, by rw [hh]⟩
    | cons r rest' =>
      dsimp only at hsome
      injection hsome with hh
      exact ⟨x, hx, by rw [← hh]⟩

theorem genericIntervalErrors_some (collarData : List Row)
    (configs : List TableConfig) (libraries : List CodeLibrary)
    (data : List Row) (t : TableType) (config : TableConfig)
    (h : configs.find? (fun c => c.tableType = t) = some config) :
    genericIntervalErrors collarData configs libraries data t =
      validateStructure data config ++
      validateIntegrity collarData data t ++
      validateEOH collarData data t ++
      validateIntervals data t ++
      validateValues data config libraries := by
  unfold genericIntervalErrors
  rw [h]

theorem genericIntervalErrors_table (collarData : List Row)
    (configs : List TableConfig) (libraries : List CodeLibrary)
    (data : List Row) (t : TableType) (e : ValidationError)
    (he : e ∈ genericIntervalErrors collarData configs libraries data t) :
    e.table = t ∧ (configs.find? (fun c => c.tableType = t)).isSome := by
  cases hfind : configs.find? (fun c => c.tableType = t) with
  | none =>
    unfold genericIntervalErrors at he
    rw [hfind] at he
    dsimp only at he
    cases he
  | some config =>
    rw [genericIntervalErrors_some collarData configs libraries data t
      config hfind] at he
    have hcfg : config.tableType = t := by
      have := List.find?_some hfind
      simpa using this
    refine ⟨?_, rfl⟩
    simp only [List.mem_append] at he
    rcases he with ((((he | he) | he) | he) | he)
    · rw [validateStructure_table _ _ _ he, hcfg]
    · exact validateIntegrity_table _ _ _ _ he
    · exact validateEOH_table _ _ _ _ he
    · exact validateIntervals_table _ _ _ he
    · rw [validateValues_table _ _ _ _ he, hcfg]

/-- Every pre-aggregation error either concerns SURVEY (whose integrity and
inline depth checks run unconditionally) or a table type that has an
active rule set. -/
theorem collectErrors_table (collarData surveyData lithologyData assayData
    mineralizationData oxidationData geotechData rqdData veinData
    alterationData densityData : List Row) (configs : List TableConfig)
    (libraries : List CodeLibrary) (e : ValidationError)
    (he : e ∈ collectErrors collarData surveyData lithologyData assayData
      mineralizationData oxidationData geotechData rqdData veinData
      alterationData densityData configs libraries) :
    e.table = .SURVEY ∨
      (configs.find? (fun c => c.tableType = e.table)).isSome := by
  unfold collectErrors at he
  simp only [List.append_assoc, List.mem_append] at he
  rcases he with he | he | he | he | he | he | he | he | he | he | he | he | he
  · cases hfind : configs.find? (fun c => c.tableType = TableType.COLLAR) with
    | none =>
      rw [hfind] at he
      dsimp only at he
      cases he
    | some cfg =>
      rw [hfind] at he
      dsimp only at he
      have hcfg : cfg.tableType = .COLLAR := by
        have := List.find?_some hfind
        simpa using this
      right
      simp only [List.mem_append] at he
      rcases he with he | he | he
      · rw [validateStructure_table _ _ _ he, hcfg, hfind]
        rfl
      · rw [validateValues_table _ _ _ _ he, hcfg, hfind]
        rfl
      · rw [validateCollarDepths_table _ _ he, hfind]
        rfl
  · cases hfind : configs.find? (fun c => c.tableType = TableType.SURVEY) with
    | none =>
      rw [hfind] at he
      dsimp only at he
      cases he
    | some cfg =>
      rw [hfind] at he
      dsimp only at he
      have hcfg : cfg.tableType = .SURVEY := by
        have := List.find?_some hfind
        simpa using this
      left
      simp only [List.mem_append] at he
      rcases he with he | he
      · rw [validateStructure_table _ _ _ he, hcfg]
      · rw [validateValues_table _ _ _ _ he, hcfg]
  · exact Or.inl (validateIntegrity_table _ _ _ _ he)
  · exact Or.inl (surveyEohErrors_table _ _ _ he)
  all_goals
    obtain ⟨ht, hfind⟩ := genericIntervalErrors_table _ _ _ _ _ _ he
  all_goals rw [ht]
  all_goals exact Or.inr hfind

/-- **C1 (counterexample).** The claim says a table type with no entry in
`configs` contributes no errors at all, SURVEY included.  With an empty
configuration list and one survey row whose site is absent from Collar,
the run still emits one SURVEY integrity error: the orchestrator runs the
survey integrity and inline depth checks unconditionally. -/
theorem C1_unconfigured_counterexample :
    (([] : List TableConfig).find?
      (fun c => c.tableType = TableType.SURVEY) = none) ∧
    ((runValidation [] [⟨"sv1", [("SITE_ID", .str "S9"), ("DEPTH", .num 10)]⟩]
        [] [] [] [] [] [] [] [] [] [] []).errors).countP
      (fun e => e.table = TableType.SURVEY) = 1 :=
  ⟨rfl, of_decide_eq_true (by with_unfolding_all rfl)⟩

/-- **C1 (amended).** For every table type other than SURVEY that has no
entry in the supplied configs list, the returned Summary contains no error
whose table field equals that table type.  SURVEY is the exception forced
by the counterexample: its integrity and inline depth checks run
unconditionally, so SURVEY errors can appear without a SURVEY rule set
(the SURVEY structure and value checks do remain config-guarded). -/
theorem C1_unconfigured_tables (collarData surveyData lithologyData assayData
    mineralizationData oxidationData geotechData rqdData veinData
    alterationData densityData : List Row) (configs : List TableConfig)
    (libraries : List CodeLibrary) (t : TableType) (ht : t ≠ .SURVEY)
    (hfind : configs.find? (fun c => c.tableType = t) = none) :
    ((runValidation collarData surveyData lithologyData assayData
        mineralizationData oxidationData geotechData rqdData veinData
        alterationData densityData configs libraries).errors).countP
      (fun e => e.table = t) = 0 := by
  have herr : (runValidation collarData surveyData lithologyData assayData
      mineralizationData oxidationData geotechData rqdData veinData
      alterationData densityData configs libraries).errors =
      groupErrors (collectErrors collarData surveyData lithologyData assayData
        mineralizationData oxidationData geotechData rqdData veinData
        alterationData densityData configs libraries) := rfl
  rw [herr, List.countP_eq_zero]
  intro e he
  simp only [decide_eq_true_eq]
  intro htbl
  obtain ⟨e', he', htbl'⟩ := groupErrors_table _ e he
  have := collectErrors_table collarData surveyData lithologyData assayData
    mineralizationData oxidationData geotechData rqdData veinData
    alterationData densityData configs libraries e' he'
  rw [htbl', htbl] at this
  rcases this with hs | hs
  · exact ht hs
  · rw [hfind] at hs
    cases hs

/-- Concrete instance of the amended C1: with no configs, a run carrying a
lithology row produces no LITHOLOGY-tagged error. -/
theorem C1_unconfigured_tables_witness :
    ((runValidation [] []
        [⟨"r1", [("SITE_ID", .str "S1"), ("DEPTH_FROM", .num 0),
                 ("DEPTH_TO", .num 5)]⟩]
        [] [] [] [] [] [] [] [] [] []).errors).countP
      (fun e => e.table = TableType.LITHOLOGY) = 0 :=
  C1_unconfigured_tables [] []
    [⟨"r1", [("SITE_ID", .str "S1"), ("DEPTH_FROM", .num 0),
             ("DEPTH_TO", .num 5)]⟩]
    [] [] [] [] [] [] [] [] [] [] .LITHOLOGY (by decide) rfl

end DH
